import Mathlib

/-!
# Role-based routing and dashboard assembly of the ALMS front end

A shallow embedding of `src/App.jsx` (route guards and the route table) and of
`src/pages/Dashboard.jsx` (data load, report actions, rendering of the summary
values), followed by the properties proved about them.

Conventions of the embedding

* A React component is a function from what it reads (the auth context, its
  props, its state) to the element it returns.
* An `async` handler is a function from the outcome of each awaited call to
  the final state together with the list of effects it performed, in order.
* JavaScript numbers are IEEE-754 binary64 values; arithmetic on them is the
  exact result rounded to nearest, ties to even.
-/

namespace Alms

/-! ## Auth context (`useAuth()`), consumed by `App.jsx` and `Dashboard.jsx` -/

/-- The value of `user.id`: the code only tests it for truthiness and passes it on. -/
inductive IdValue where
  | str (s : String)
  | num (n : Int)
  deriving DecidableEq, Repr

/-- The user object of the auth context; `id = none` stands for a user object
without an `id` property (`user.id` is `undefined`). -/
structure User where
  id : Option IdValue
  role : String
  deriving DecidableEq, Repr

/-- What `useAuth()` returns: `{ user, loading, isAdmin }`. The result of the
call `isAdmin()` is a field of its own: the provider is not part of the
sources, so nothing ties it to `user`. -/
structure Session where
  user : Option User
  loading : Bool
  isAdmin : Bool
  deriving DecidableEq, Repr

/-! ## Pages and elements of `App.jsx` -/

/-- The page components mounted by the route table. -/
inductive Page where
  | LandingPage
  | Login
  | Setup
  | Dashboard (adminView : Bool)
  | Performance
  | Training
  | Employees
  | Reports
  | Analysis
  | Profile
  | Settings
  deriving DecidableEq, Repr

/-- What a route element evaluates to when it is rendered. -/
inductive Outcome where
  /-- The component returned `null`. -/
  | nothing
  /-- The component returned `<Navigate to=... replace />`. -/
  | redirect (target : String)
  /-- The component returned `<PageContainer>{children}</PageContainer>`. -/
  | container (child : Page)
  /-- The page is the route element itself, with no guard around it. -/
  | bare (child : Page)
  deriving DecidableEq, Repr

/-- `ProtectedRoute` (App.jsx 22-32). -/
def ProtectedRoute (s : Session) (children : Page) : Outcome :=
  if s.loading then Outcome.nothing
  else if s.user.isNone then Outcome.redirect "/login"
  else Outcome.container children

/-- `AdminRoute` (App.jsx 35-49). -/
def AdminRoute (s : Session) (children : Page) : Outcome :=
  if s.loading then Outcome.nothing
  else if s.user.isNone then Outcome.redirect "/login"
  else if !s.isAdmin then Outcome.redirect "/dashboard"
  else Outcome.container children

/-- The `element` prop of a `<Route>` of the table. -/
inductive Element where
  | page (p : Page)
  | protectedRoute (children : Page)
  | adminRoute (children : Page)
  /-- The element of the `*` route: a `Navigate` whose target is computed from
  the auth context. -/
  | catchAll
  deriving DecidableEq, Repr

/-- One `<Route path=... element=... />`. -/
structure Route where
  path : String
  element : Element
  deriving DecidableEq, Repr

/-- The `<Routes>` block of `AppContent` (App.jsx 71-148), in source order. -/
def routes : List Route :=
  [ ⟨"/", Element.page Page.LandingPage⟩,
    ⟨"/login", Element.page Page.Login⟩,
    ⟨"/setup", Element.page Page.Setup⟩,
    ⟨"/dashboard", Element.protectedRoute (Page.Dashboard false)⟩,
    ⟨"/admin-dashboard", Element.adminRoute (Page.Dashboard true)⟩,
    ⟨"/performance", Element.protectedRoute Page.Performance⟩,
    ⟨"/training", Element.protectedRoute Page.Training⟩,
    ⟨"/employees", Element.adminRoute Page.Employees⟩,
    ⟨"/reports", Element.adminRoute Page.Reports⟩,
    ⟨"/analysis", Element.adminRoute Page.Analysis⟩,
    ⟨"/profile", Element.protectedRoute Page.Profile⟩,
    ⟨"/settings", Element.adminRoute Page.Settings⟩,
    ⟨"*", Element.catchAll⟩ ]

/-- The `to` prop of the catch-all `Navigate` (App.jsx 147):
`user ? (isAdmin() ? "/admin-dashboard" : "/dashboard") : "/"`. -/
def catchAllTarget (s : Session) : String :=
  if s.user.isSome then (if s.isAdmin then "/admin-dashboard" else "/dashboard") else "/"

/-- Rendering a route element under a session. -/
def Element.render (s : Session) : Element → Outcome
  | Element.page p => Outcome.bare p
  | Element.protectedRoute c => ProtectedRoute s c
  | Element.adminRoute c => AdminRoute s c
  | Element.catchAll => Outcome.redirect (catchAllTarget s)

/-- The privilege a route element asks for. -/
inductive Privilege where
  | pub
  | authenticated
  | admin
  deriving DecidableEq, Repr

/-- The privilege of an element, read off the guard that wraps it; the
catch-all has none. -/
def Element.privilege : Element → Option Privilege
  | Element.page _ => some Privilege.pub
  | Element.protectedRoute _ => some Privilege.authenticated
  | Element.adminRoute _ => some Privilege.admin
  | Element.catchAll => none

/-- The routes other than the catch-all. -/
def declaredRoutes : List Route :=
  routes.filter (fun r => r.path != "*")

/-- The paths of the declared routes. -/
def declaredPaths : List String :=
  declaredRoutes.map Route.path

/-- The path matching of the router library, `matches pattern location`. It is
a parameter: react-router is not part of the sources. -/
abbrev Matcher := String → String → Bool

/-- Literal matching: a pattern matches the location equal to it, and `*`
matches every location. -/
def exactMatch : Matcher :=
  fun pattern location => pattern == "*" || pattern == location

/-- What the development assumes of the library's matcher: `*` matches every
location, and a declared static pattern, taken as a location, is matched by
itself and by no other declared static pattern. -/
def Matcher.Faithful (m : Matcher) : Prop :=
  (∀ location, m "*" location = true) ∧
  (∀ p ∈ declaredPaths, ∀ q ∈ declaredPaths, (m p q = true ↔ p = q))

/-- The route selected for a location: the first one, in source order, whose
pattern matches (static patterns rank before `*`, which is also last in the
source). -/
def selectRoute (m : Matcher) (location : String) : Option Route :=
  routes.find? (fun r => m r.path location)

/-- A location is unmatched when no declared route matches it. -/
def Unmatched (m : Matcher) (location : String) : Prop :=
  ∀ r ∈ declaredRoutes, m r.path location = false

instance (m : Matcher) (location : String) : Decidable (Unmatched m location) :=
  inferInstanceAs (Decidable (∀ r ∈ declaredRoutes, m r.path location = false))

/-- One evaluation of `<Routes>` at a location under a session: what the
selected element renders; `none` when no route matches at all. -/
def navigate (m : Matcher) (s : Session) (location : String) : Option Outcome :=
  (selectRoute m location).map (fun r => r.element.render s)

/-- An outcome that emits a redirect. -/
def Outcome.isRedirect : Outcome → Bool
  | Outcome.redirect _ => true
  | _ => false

/-- An outcome that renders the wrapped page. -/
def Outcome.rendersPage : Outcome → Bool
  | Outcome.container _ => true
  | Outcome.bare _ => true
  | _ => false

/-! ## JavaScript numbers

The values read from the analysis objects are JavaScript numbers, and
`Dashboard.jsx` multiplies, adds, divides and rounds them. A number is an
IEEE-754 binary64 value; every arithmetic operation returns the exact result
rounded to the nearest representable value, ties to the even significand. -/

/-- A binary64 value. `fin neg m e` is `(-1)^neg * m * 2^e`, kept in the
canonical form of the format: `2^52 ≤ m < 2^53` and `-1074 ≤ e ≤ 971` (normal),
or `m < 2^52` and `e = -1074` (subnormal and zero). -/
inductive Double where
  | nan
  | inf (neg : Bool)
  | fin (neg : Bool) (m : Nat) (e : Int)
  deriving DecidableEq, Repr

namespace Double

/-- The quotient `n / d` rounded to the nearest natural number, ties to even. -/
def divNearestEven (n d : Nat) : Nat :=
  let q := n / d
  let r := n % d
  if 2 * r < d then q
  else if d < 2 * r then q + 1
  else if q % 2 = 0 then q else q + 1

/-- Halving `n` until it is below 2, counting the steps; at most `fuel` steps. -/
def log2Steps : Nat → Nat → Nat
  | 0, _ => 0
  | fuel + 1, n => if n < 2 then 0 else log2Steps fuel (n / 2) + 1

/-- The position of the leading bit of `n`: `2^(log2 n) ≤ n < 2^(log2 n + 1)`
for positive `n`. -/
def log2 (n : Nat) : Nat := log2Steps n n

/-- The binary exponent of a positive rational `n / d`: the `E` with
`2^E ≤ n / d < 2^(E+1)`. -/
def binaryExponent (n d : Nat) : Int :=
  let a := log2 n
  let b := log2 d
  if n * 2 ^ b < d * 2 ^ a then (a : Int) - (b : Int) - 1 else (a : Int) - (b : Int)

/-- The binary64 value nearest to `(-1)^neg * n / d` (with `d > 0`), ties to
even; magnitudes that round to `2^1024` or more overflow to infinity. -/
def ofQuotient (neg : Bool) (n d : Nat) : Double :=
  if n = 0 then fin neg 0 (-1074)
  else
    let e : Int := max (binaryExponent n d - 52) (-1074)
    let m := divNearestEven (n * 2 ^ (-e).toNat) (d * 2 ^ e.toNat)
    let m1 := if m = 2 ^ 53 then 2 ^ 52 else m
    let e1 := if m = 2 ^ 53 then e + 1 else e
    if 971 < e1 then inf neg else fin neg m1 e1

/-- The number denoted by the decimal literal `digits * 10^(-scale)`, as a JSON
parser or the JavaScript reader produces it: `ofDecimal 87 2` is `0.87`. -/
def ofDecimal (digits scale : Nat) : Double :=
  ofQuotient false digits (10 ^ scale)

/-- A natural number as a JavaScript number (exact below `2^53`). -/
def ofNat (n : Nat) : Double :=
  ofQuotient false n 1

/-- Numerator of the magnitude of a finite value `m * 2^e`. -/
def magNum (m : Nat) (e : Int) : Nat := m * 2 ^ e.toNat

/-- Denominator of the magnitude of a finite value `m * 2^e`. -/
def magDen (e : Int) : Nat := 2 ^ (-e).toNat

/-- The exact value of a finite number, as a rational; `none` for `NaN` and the
infinities. -/
def toRat : Double → Option ℚ
  | nan => none
  | inf _ => none
  | fin neg m e => some ((if neg then -1 else 1) * ((magNum m e : ℚ) / (magDen e : ℚ)))

/-- The operator `*` of JavaScript on numbers. -/
def mul : Double → Double → Double
  | nan, _ => nan
  | _, nan => nan
  | inf s, inf t => inf (s != t)
  | inf s, fin t m _ => if m = 0 then nan else inf (s != t)
  | fin s m _, inf t => if m = 0 then nan else inf (s != t)
  | fin s m e, fin t k f =>
    ofQuotient (s != t) (magNum m e * magNum k f) (magDen e * magDen f)

/-- The operator `+` of JavaScript on numbers. -/
def add : Double → Double → Double
  | nan, _ => nan
  | _, nan => nan
  | inf s, inf t => if s = t then inf s else nan
  | inf s, fin _ _ _ => inf s
  | fin _ _ _, inf t => inf t
  | fin s m e, fin t k f =>
    let x : Int := (if s then -1 else 1) * ((magNum m e * magDen f : Nat) : Int)
    let y : Int := (if t then -1 else 1) * ((magNum k f * magDen e : Nat) : Int)
    let z := x + y
    if z = 0 then fin (s && t) 0 (-1074)
    else ofQuotient (decide (z < 0)) z.natAbs (magDen e * magDen f)

/-- The operator `/` of JavaScript on numbers. -/
def div : Double → Double → Double
  | nan, _ => nan
  | _, nan => nan
  | inf _, inf _ => nan
  | inf s, fin t _ _ => inf (s != t)
  | fin s _ _, inf t => fin (s != t) 0 (-1074)
  | fin s m e, fin t k f =>
    if k = 0 then (if m = 0 then nan else inf (s != t))
    else ofQuotient (s != t) (magNum m e * magDen f) (magDen e * magNum k f)

/-- `Math.round`: the integral number closest to the argument, the one closer
to `+∞` on a tie; `NaN`, the infinities and integral numbers are returned as
they are, and a result of zero keeps the sign of the argument. -/
def mathRound : Double → Double
  | nan => nan
  | inf s => inf s
  | fin s m e =>
    if 0 ≤ e then fin s m e
    else
      let d : Int := (magDen e : Int)
      let x : Int := (if s then -1 else 1) * (m : Int)
      ofQuotient s ((2 * x + d) / (2 * d)).natAbs 1

/-- The integer of an integral finite number; `none` otherwise. -/
def toInt : Double → Option Int
  | nan => none
  | inf _ => none
  | fin s m e =>
    if magNum m e % magDen e = 0 then
      some ((if s then -1 else 1) * ((magNum m e / magDen e : Nat) : Int))
    else none

/-- `Number::toString` in radix 10, where it is modelled: `NaN`, the
infinities, and the integral numbers of magnitude up to `2^53`, which print as
their decimal digits (both zeros print as `0`). Elsewhere (fractions, larger
magnitudes) the digit generation of the language is not modelled and the
result is `none`. -/
def numberToString : Double → Option String
  | nan => some "NaN"
  | inf s => some (if s then "-Infinity" else "Infinity")
  | fin s m e =>
    match toInt (fin s m e) with
    | some i => if i.natAbs ≤ 2 ^ 53 then some (toString i) else none
    | none => none

end Double

/-! ## Analysis objects and services consumed by `Dashboard.jsx` -/

/-- The object `current_metrics` of an employee analysis. -/
structure CurrentMetrics where
  task_completion_rate : Double
  communication_score : Double
  collaboration_score : Double
  deriving DecidableEq, Repr

/-- One entry of `historical_trends.task_completion`. -/
structure TrendPoint where
  day : Nat
  completion_rate : Double
  deriving DecidableEq, Repr

/-- The object `historical_trends`. -/
structure HistoricalTrends where
  task_completion : List TrendPoint
  deriving DecidableEq, Repr

/-- The object `performance_summary`. -/
structure PerformanceSummary where
  overall_score : Double
  strongest_area : String
  improvement_needed : String
  deriving DecidableEq, Repr

/-- One entry of `recommendations`. -/
structure Recommendation where
  priority : String
  suggestion : String
  reason : String
  deriving DecidableEq, Repr

/-- What `EmployeeService.getEmployeeAnalysis` resolves to. -/
structure EmployeeAnalysis where
  current_metrics : CurrentMetrics
  historical_trends : HistoricalTrends
  performance_summary : PerformanceSummary
  recommendations : List Recommendation
  deriving DecidableEq, Repr

/-- One value of the mapping `department_statistics`. -/
structure DepartmentStatistics where
  avg_task_completion : Double
  avg_email_response : Double
  deriving DecidableEq, Repr

/-- What `AdminService.getAllAnalyses` resolves to. The mapping
`department_statistics` is the list of its entries in key order, the order in
which `Object.keys` enumerates it; the keys of an object are distinct. -/
structure AdminAnalysisSummary where
  total_employees : Nat
  department_statistics : List (String × DepartmentStatistics)
  deriving DecidableEq, Repr

/-- The reason a service call rejects with. -/
structure ApiError where
  message : String
  deriving DecidableEq, Repr

/-- The body of the report response. -/
structure Blob where
  bytes : List Nat
  deriving DecidableEq, Repr

/-- The two service groups of `../services/api`, each call given by what its
promise settles to: `Except.ok` when it resolves, `Except.error` when it
rejects. -/
structure Api where
  getEmployeeAnalysis : IdValue → Except ApiError EmployeeAnalysis
  getReport : IdValue → Except ApiError Blob
  getAllAnalyses : Except ApiError AdminAnalysisSummary
  generateReports : Except ApiError Unit

/-- The statements of `handleGenerateReport` between the service call and the
toast (Dashboard.jsx 99-105), in order. -/
inductive DomStep where
  | createObjectURL
  | createElement
  | setHref
  | setDownload (fileName : String)
  | appendChild
  | click
  | removeChild
  deriving DecidableEq, Repr

/-- The browser, as far as the handlers see it: each DOM statement either
completes or throws. -/
structure Browser where
  completes : DomStep → Bool

/-- What a `catch` clause of `Dashboard.jsx` receives: the rejection of a
service call, or the exception of a DOM statement. -/
inductive Thrown where
  | api (err : ApiError)
  | dom (step : DomStep)
  deriving DecidableEq, Repr

/-- The `status` of a toast. -/
inductive ToastStatus where
  | success
  | error
  deriving DecidableEq, Repr

/-- What the handlers of `Dashboard.jsx` do to the outside, in order. -/
inductive Effect where
  | getAllAnalyses
  | getEmployeeAnalysis (employeeId : IdValue)
  | getReport (employeeId : IdValue)
  | generateReports
  | dom (step : DomStep)
  | consoleError (label : String) (err : Thrown)
  | toast (status : ToastStatus) (title : String)
  deriving DecidableEq, Repr

/-- An effect that surfaces a notification to the user. -/
def Effect.isToast : Effect → Bool
  | Effect.toast _ _ => true
  | _ => false

/-- An effect that surfaces a notification of the given status. -/
def Effect.isToastOf (status : ToastStatus) : Effect → Bool
  | Effect.toast st _ => decide (st = status)
  | _ => false

/-! ## `Dashboard` (Dashboard.jsx 56-492) -/

/-- The four `useState` cells of `Dashboard`. `error` holds `null` or a string. -/
structure DashboardState where
  loading : Bool
  error : Option String
  employeeData : Option EmployeeAnalysis
  adminData : Option AdminAnalysisSummary
  deriving DecidableEq, Repr

/-- The state of a freshly mounted `Dashboard` (Dashboard.jsx 58-61). -/
def DashboardState.initial : DashboardState :=
  { loading := true, error := none, employeeData := none, adminData := none }

/-- Truthiness of the value of `user.id`. -/
def IdValue.truthy : IdValue → Bool
  | IdValue.str s => s != ""
  | IdValue.num n => n != 0

/-- The text of an id inside a template literal. -/
def IdValue.text : IdValue → String
  | IdValue.str s => s
  | IdValue.num n => toString n

/-- The expression `user?.id || '1'` (Dashboard.jsx 78 and 95). -/
def employeeIdOf (user : Option User) : IdValue :=
  match user.bind User.id with
  | some v => if v.truthy then v else IdValue.str "1"
  | none => IdValue.str "1"

/-- The `try` block of `fetchData` (Dashboard.jsx 72-81): the state after it and
the calls it made, or the error it threw together with the calls made. -/
def fetchDataTry (api : Api) (adminView : Bool) (auth : Session) (st : DashboardState) :
    Except Thrown DashboardState × List Effect :=
  if adminView && auth.isAdmin then
    match api.getAllAnalyses with
    | Except.ok data => (Except.ok { st with adminData := some data }, [Effect.getAllAnalyses])
    | Except.error err => (Except.error (Thrown.api err), [Effect.getAllAnalyses])
  else
    let employeeId := employeeIdOf auth.user
    match api.getEmployeeAnalysis employeeId with
    | Except.ok data =>
      (Except.ok { st with employeeData := some data }, [Effect.getEmployeeAnalysis employeeId])
    | Except.error err =>
      (Except.error (Thrown.api err), [Effect.getEmployeeAnalysis employeeId])

/-- `fetchData` (Dashboard.jsx 68-88), run to completion from the state `st`:
the state it leaves and the effects it performed. -/
def fetchData (api : Api) (adminView : Bool) (auth : Session) (st : DashboardState) :
    DashboardState × List Effect :=
  let st1 := { st with loading := true }
  let st2 := { st1 with error := none }
  let afterCatch : DashboardState × List Effect :=
    match fetchDataTry api adminView auth st2 with
    | (Except.ok st3, log) => (st3, log)
    | (Except.error err, log) =>
      ({ st2 with error := some "Data Loading Error" },
        log ++ [Effect.consoleError "Veri yükleme hatası:" err])
  ({ afterCatch.1 with loading := false }, afterCatch.2)

/-- Running the DOM statements in order until one throws: the statement that
threw, if any, and the statements executed (the throwing one included). -/
def runDomSteps (browser : Browser) : List DomStep → Option DomStep × List Effect
  | [] => (none, [])
  | step :: rest =>
    if browser.completes step then
      ((runDomSteps browser rest).1, Effect.dom step :: (runDomSteps browser rest).2)
    else (some step, [Effect.dom step])

/-- The DOM statements of `handleGenerateReport` for an employee id
(Dashboard.jsx 99-105). -/
def downloadSteps (employeeId : IdValue) : List DomStep :=
  [ DomStep.createObjectURL, DomStep.createElement, DomStep.setHref,
    DomStep.setDownload ("employee_" ++ employeeId.text ++ "_report.pdf"),
    DomStep.appendChild, DomStep.click, DomStep.removeChild ]

/-- The `try` block of `handleGenerateReport` (Dashboard.jsx 95-113): what it
threw, if anything, and the effects it performed. -/
def handleGenerateReportTry (api : Api) (browser : Browser) (auth : Session) :
    Option Thrown × List Effect :=
  let employeeId := employeeIdOf auth.user
  match api.getReport employeeId with
  | Except.error err => (some (Thrown.api err), [Effect.getReport employeeId])
  | Except.ok _ =>
    match runDomSteps browser (downloadSteps employeeId) with
    | (some step, log) => (some (Thrown.dom step), Effect.getReport employeeId :: log)
    | (none, log) =>
      (none, Effect.getReport employeeId :: log ++
        [Effect.toast ToastStatus.success "Report downloaded"])

/-- `handleGenerateReport` (Dashboard.jsx 93-124): the effects of one
invocation, in order. -/
def handleGenerateReport (api : Api) (browser : Browser) (auth : Session) : List Effect :=
  match handleGenerateReportTry api browser auth with
  | (none, log) => log
  | (some err, log) =>
    log ++ [Effect.consoleError "Report download error:" err,
            Effect.toast ToastStatus.error "Report download failed"]

/-- The `try` block of `handleGenerateAllReports` (Dashboard.jsx 128-135). -/
def handleGenerateAllReportsTry (api : Api) : Option Thrown × List Effect :=
  match api.generateReports with
  | Except.error err => (some (Thrown.api err), [Effect.generateReports])
  | Except.ok _ =>
    (none, [Effect.generateReports, Effect.toast ToastStatus.success "Reports generated"])

/-- `handleGenerateAllReports` (Dashboard.jsx 126-146): the effects of one
invocation, in order. -/
def handleGenerateAllReports (api : Api) : List Effect :=
  match handleGenerateAllReportsTry api with
  | (none, log) => log
  | (some err, log) =>
    log ++ [Effect.consoleError "Report generation error:" err,
            Effect.toast ToastStatus.error "Reports generation failed"]

/-- The JSX children `{Math.round(x * 100)}%`: the text of the rounded number
followed by `%`; `none` where `Double.numberToString` is not modelled. -/
def percentLabel (x : Double) : Option String :=
  (Double.numberToString (Double.mathRound (Double.mul x (Double.ofNat 100)))).map
    (fun text => text ++ "%")

/-- The label the specification describes for a value `x`: `x` rounded to the
nearest integer, halves rounded up, followed by `%`. -/
def roundHalfUpLabel (x : ℚ) : String :=
  toString ⌊x + 1 / 2⌋ ++ "%"

/-- The display name of a metric key (Dashboard.jsx 252-259 and 269-276). -/
def areaName (key : String) : String :=
  if key = "task_completion_rate" then "Task Completion"
  else if key = "email_efficiency" then "E-mail Efficiency"
  else if key = "meeting_efficiency" then "Meeting Efficiency"
  else if key = "communication_score" then "Communication"
  else if key = "collaboration_score" then "Collaboration"
  else if key = "time_efficiency" then "Time Management"
  else if key = "file_activity" then "File Activity"
  else key

/-- What `renderEmployeeDashboard` puts on the page, as far as it is computed
from the data: the four summary values and the two area names. The chart
component and the list of recommendations are passed on to library components
and are not part of the embedding. -/
structure EmployeeDashboardView where
  overallPerformance : Option String
  taskCompletion : Option String
  communicationScore : Option String
  collaborationScore : Option String
  strongestArea : String
  improvementArea : String
  deriving DecidableEq, Repr

/-- What `renderAdminDashboard` puts on the page: the three summary values and
one card per department. The radar chart is passed on to the chart library. -/
structure AdminDashboardView where
  totalEmployees : Nat
  departmentCount : Nat
  averagePerformance : Option String
  departments : List (String × Option String × Option String)
  deriving DecidableEq, Repr

/-- What `Dashboard` returns. -/
inductive View where
  /-- The spinner of the loading state. -/
  | spinner
  /-- The error alert showing a message. -/
  | errorAlert (message : String)
  | employeeDashboard (v : EmployeeDashboardView)
  | adminDashboard (v : AdminDashboardView)
  /-- The value `null`, returned by a renderer whose data is missing. -/
  | empty
  deriving DecidableEq, Repr

/-- `renderEmployeeDashboard` (Dashboard.jsx 149-311). -/
def renderEmployeeDashboard (st : DashboardState) : View :=
  match st.employeeData with
  | none => View.empty
  | some employeeData =>
    let metrics := employeeData.current_metrics
    View.employeeDashboard
      { overallPerformance := percentLabel employeeData.performance_summary.overall_score,
        taskCompletion := percentLabel metrics.task_completion_rate,
        communicationScore := percentLabel metrics.communication_score,
        collaborationScore := percentLabel metrics.collaboration_score,
        strongestArea := areaName employeeData.performance_summary.strongest_area,
        improvementArea := areaName employeeData.performance_summary.improvement_needed }

/-- `taskCompletionRates` of `renderAdminDashboard` (Dashboard.jsx 319-321). -/
def taskCompletionRates (adminData : AdminAnalysisSummary) : List Double :=
  adminData.department_statistics.map
    (fun entry => Double.mul entry.2.avg_task_completion (Double.ofNat 100))

/-- The children of the Average Performance card (Dashboard.jsx 416):
`{Math.round(rates.reduce((a, b) => a + b, 0) / rates.length)}%`. -/
def averagePerformanceLabel (rates : List Double) : Option String :=
  (Double.numberToString (Double.mathRound
    (Double.div (rates.foldl Double.add (Double.ofNat 0)) (Double.ofNat rates.length)))).map
    (fun text => text ++ "%")

/-- `renderAdminDashboard` (Dashboard.jsx 314-468). -/
def renderAdminDashboard (st : DashboardState) : View :=
  match st.adminData with
  | none => View.empty
  | some adminData =>
    let departmentNames := adminData.department_statistics.map Prod.fst
    View.adminDashboard
      { totalEmployees := adminData.total_employees,
        departmentCount := departmentNames.length,
        averagePerformance := averagePerformanceLabel (taskCompletionRates adminData),
        departments := adminData.department_statistics.map (fun entry =>
          (entry.1, percentLabel entry.2.avg_task_completion,
            percentLabel entry.2.avg_email_response)) }

/-- The two dashboard renderers. -/
inductive Renderer where
  | employee
  | admin
  deriving DecidableEq, Repr

/-- The condition of the final `return` of `Dashboard` (Dashboard.jsx 491):
`adminView && isAdmin() ? renderAdminDashboard() : renderEmployeeDashboard()`. -/
def selectedRenderer (adminView : Bool) (auth : Session) : Renderer :=
  if adminView && auth.isAdmin then Renderer.admin else Renderer.employee

/-- The render of `Dashboard` (Dashboard.jsx 471-491) for a state. -/
def Dashboard (adminView : Bool) (auth : Session) (st : DashboardState) : View :=
  if st.loading then View.spinner
  else
    match st.error with
    | some message =>
      if message != "" then View.errorAlert message
      else
        match selectedRenderer adminView auth with
        | Renderer.admin => renderAdminDashboard st
        | Renderer.employee => renderEmployeeDashboard st
    | none =>
      match selectedRenderer adminView auth with
      | Renderer.admin => renderAdminDashboard st
      | Renderer.employee => renderEmployeeDashboard st

/-- The text of the Overall Performance card of a view, when the view is the
employee dashboard. -/
def View.overallPerformance : View → Option String
  | View.employeeDashboard v => v.overallPerformance
  | _ => none

/-- A view that shows analysis data. -/
def View.showsAnalysis : View → Bool
  | View.employeeDashboard _ => true
  | View.adminDashboard _ => true
  | _ => false

/-- The text of the Average Performance card of a view, when the view is the
admin dashboard. -/
def View.averagePerformance : View → Option String
  | View.adminDashboard v => v.averagePerformance
  | _ => none

/-- The employee ids that a list of effects passes to
`EmployeeService.getEmployeeAnalysis`, in order. -/
def analysisIds (log : List Effect) : List IdValue :=
  log.filterMap (fun eff =>
    match eff with
    | Effect.getEmployeeAnalysis employeeId => some employeeId
    | _ => none)

/-- The employee ids that a list of effects passes to
`EmployeeService.getReport`, in order. -/
def reportIds (log : List Effect) : List IdValue :=
  log.filterMap (fun eff =>
    match eff with
    | Effect.getReport employeeId => some employeeId
    | _ => none)

/-- The file names that a list of effects sets as the `download` attribute of
the link, in order. -/
def downloadNames (log : List Effect) : List String :=
  log.filterMap (fun eff =>
    match eff with
    | Effect.dom (DomStep.setDownload fileName) => some fileName
    | _ => none)

/-! ## Sample data, used to instantiate the theorems below -/

/-- An employee analysis whose `overall_score` is the given number. -/
def sampleEmployeeAnalysis (overall_score : Double) : EmployeeAnalysis :=
  { current_metrics :=
      { task_completion_rate := Double.ofDecimal 9 1,
        communication_score := Double.ofDecimal 75 2,
        collaboration_score := Double.ofDecimal 6 1 },
    historical_trends := { task_completion := [⟨1, Double.ofDecimal 8 1⟩] },
    performance_summary :=
      { overall_score := overall_score,
        strongest_area := "task_completion_rate",
        improvement_needed := "collaboration_score" },
    recommendations := [⟨"high", "Pair reviews", "Low collaboration score"⟩] }

/-- An admin summary with two departments. -/
def sampleAdminSummary : AdminAnalysisSummary :=
  { total_employees := 12,
    department_statistics :=
      [ ("Engineering", ⟨Double.ofDecimal 8 1, Double.ofDecimal 7 1⟩),
        ("Sales", ⟨Double.ofDecimal 6 1, Double.ofDecimal 9 1⟩) ] }

/-- A backend on which every call resolves. -/
def workingApi : Api :=
  { getEmployeeAnalysis := fun _ => Except.ok (sampleEmployeeAnalysis (Double.ofDecimal 87 2)),
    getReport := fun _ => Except.ok ⟨[37, 80, 68, 70]⟩,
    getAllAnalyses := Except.ok sampleAdminSummary,
    generateReports := Except.ok () }

/-- A backend on which every call rejects. -/
def failingApi : Api :=
  { getEmployeeAnalysis := fun _ => Except.error ⟨"Network Error"⟩,
    getReport := fun _ => Except.error ⟨"Network Error"⟩,
    getAllAnalyses := Except.error ⟨"Network Error"⟩,
    generateReports := Except.error ⟨"Network Error"⟩ }

/-- A browser in which every DOM statement completes. -/
def workingBrowser : Browser :=
  { completes := fun _ => true }

/-- A browser in which `link.click()` throws. -/
def clickFailsBrowser : Browser :=
  { completes := fun step => decide (step ≠ DomStep.click) }

/-- The state after a successful employee load whose analysis carries the given
`overall_score`. -/
def loadedState (overall_score : Double) : DashboardState :=
  { loading := false, error := none,
    employeeData := some (sampleEmployeeAnalysis overall_score),
    adminData := none }

/-- An admin summary of an organisation without departments: the mapping
`department_statistics` is the empty object. -/
def emptyAdminSummary : AdminAnalysisSummary :=
  { total_employees := 0, department_statistics := [] }

/-- A backend whose aggregate analysis has no departments. -/
def emptyDepartmentsApi : Api :=
  { getEmployeeAnalysis := fun _ => Except.ok (sampleEmployeeAnalysis (Double.ofDecimal 87 2)),
    getReport := fun _ => Except.ok ⟨[37, 80, 68, 70]⟩,
    getAllAnalyses := Except.ok emptyAdminSummary,
    generateReports := Except.ok () }

/-- The state after a successful admin load of the given summary. -/
def adminLoadedState (adminData : AdminAnalysisSummary) : DashboardState :=
  { loading := false, error := none, employeeData := none, adminData := some adminData }

/-- A state left by an earlier successful load of both kinds of data. -/
def staleState : DashboardState :=
  { loading := false, error := none,
    employeeData := some (sampleEmployeeAnalysis (Double.ofDecimal 87 2)),
    adminData := some sampleAdminSummary }

/-! ## Properties of the route guards and of the route table -/

theorem exactMatch_faithful : Matcher.Faithful exactMatch := by
  refine ⟨fun location => by simp [exactMatch], ?_⟩
  decide

theorem routes_eq_declared_append :
    routes = declaredRoutes ++ [⟨"*", Element.catchAll⟩] := by
  decide

theorem find_declared_self :
    ∀ r ∈ declaredRoutes,
      declaredRoutes.find? (fun x => decide (x.path = r.path)) = some r := by
  decide

theorem find_declared_congr (m : Matcher) (hm : Matcher.Faithful m) (r : Route)
    (hr : r ∈ declaredRoutes) :
    declaredRoutes.find? (fun x => m x.path r.path)
      = declaredRoutes.find? (fun x => decide (x.path = r.path)) := by
  have key : ∀ l : List Route, (∀ x ∈ l, x ∈ declaredRoutes) →
      l.find? (fun x => m x.path r.path) = l.find? (fun x => decide (x.path = r.path)) := by
    intro l
    induction l with
    | nil => intro _; rfl
    | cons a t ih =>
      intro hl
      have ha : a ∈ declaredRoutes := hl a (List.mem_cons_self a t)
      have hiff := hm.2 a.path (List.mem_map_of_mem Route.path ha) r.path
        (List.mem_map_of_mem Route.path hr)
      have hb : m a.path r.path = decide (a.path = r.path) := by
        by_cases h : a.path = r.path
        · rw [decide_eq_true h]; exact hiff.mpr h
        · rw [decide_eq_false h]
          cases hmv : m a.path r.path with
          | false => rfl
          | true => exact absurd (hiff.mp hmv) h
      have iht := ih (fun x hx => hl x (List.mem_cons_of_mem a hx))
      simp only [List.find?_cons, hb, iht]
  exact key declaredRoutes (fun _ h => h)

/-- A declared route is the one selected at its own path. -/
theorem selectRoute_declared (m : Matcher) (hm : Matcher.Faithful m) (r : Route)
    (hr : r ∈ declaredRoutes) : selectRoute m r.path = some r := by
  unfold selectRoute
  rw [routes_eq_declared_append, List.find?_append, find_declared_congr m hm r hr,
    find_declared_self r hr]
  rfl

/-- At an unmatched location the catch-all route is the one selected. -/
theorem selectRoute_unmatched (m : Matcher) (hstar : ∀ location, m "*" location = true)
    (location : String) (hu : Unmatched m location) :
    selectRoute m location = some ⟨"*", Element.catchAll⟩ := by
  unfold selectRoute
  rw [routes_eq_declared_append, List.find?_append]
  have hnone : declaredRoutes.find? (fun r => m r.path location) = none := by
    rw [List.find?_eq_none]
    intro r hr
    simp [hu r hr]
  rw [hnone]
  simp [List.find?_cons, hstar location]

/-- C1: while the session is loading, both guards return `null`, whatever the
user and whatever `isAdmin()` returns: no redirect is emitted and the wrapped
page is not rendered. -/
theorem C1_guards_defer_while_loading (s : Session) (children : Page)
    (hl : s.loading = true) :
    ProtectedRoute s children = Outcome.nothing ∧
    AdminRoute s children = Outcome.nothing ∧
    (ProtectedRoute s children).isRedirect = false ∧
    (AdminRoute s children).isRedirect = false ∧
    (ProtectedRoute s children).rendersPage = false ∧
    (AdminRoute s children).rendersPage = false := by
  simp [ProtectedRoute, AdminRoute, hl, Outcome.isRedirect, Outcome.rendersPage]

theorem C1_guards_defer_while_loading_witness :
    (⟨some ⟨some (IdValue.num 7), "admin"⟩, true, true⟩ : Session).loading = true ∧
    ProtectedRoute ⟨some ⟨some (IdValue.num 7), "admin"⟩, true, true⟩ Page.Profile
      = Outcome.nothing ∧
    AdminRoute ⟨some ⟨some (IdValue.num 7), "admin"⟩, true, true⟩ Page.Reports
      = Outcome.nothing :=
  ⟨rfl,
   (C1_guards_defer_while_loading ⟨some ⟨some (IdValue.num 7), "admin"⟩, true, true⟩
      Page.Profile rfl).1,
   (C1_guards_defer_while_loading ⟨some ⟨some (IdValue.num 7), "admin"⟩, true, true⟩
      Page.Reports rfl).2.1⟩

/-- C2, as stated, fails: a session with `user = null` that is still loading
makes both guards return `null` instead of redirecting to `/login`. -/
theorem C2_counterexample :
    (⟨none, true, false⟩ : Session).user = none ∧
    ProtectedRoute ⟨none, true, false⟩ (Page.Dashboard false) = Outcome.nothing ∧
    ProtectedRoute ⟨none, true, false⟩ (Page.Dashboard false) ≠ Outcome.redirect "/login" ∧
    AdminRoute ⟨none, true, false⟩ Page.Reports = Outcome.nothing ∧
    AdminRoute ⟨none, true, false⟩ Page.Reports ≠ Outcome.redirect "/login" ∧
    navigate exactMatch ⟨none, true, false⟩ "/dashboard" = some Outcome.nothing := by
  decide

/-- C2, amended: for every session that has finished loading and has
`user = null`, both guards redirect to `/login`, and so does every route of the
table wrapped in `ProtectedRoute` or `AdminRoute`, also when it is reached
through the router at its own path. -/
theorem C2_no_user_redirects_to_login (m : Matcher) (hm : Matcher.Faithful m) (s : Session)
    (hl : s.loading = false) (hu : s.user = none) :
    (∀ children, ProtectedRoute s children = Outcome.redirect "/login") ∧
    (∀ children, AdminRoute s children = Outcome.redirect "/login") ∧
    (∀ r ∈ declaredRoutes,
      (r.element.privilege = some Privilege.authenticated ∨
        r.element.privilege = some Privilege.admin) →
      r.element.render s = Outcome.redirect "/login" ∧
      navigate m s r.path = some (Outcome.redirect "/login")) := by
  have hp : ∀ children, ProtectedRoute s children = Outcome.redirect "/login" := by
    intro c; simp [ProtectedRoute, hl, hu]
  have ha : ∀ children, AdminRoute s children = Outcome.redirect "/login" := by
    intro c; simp [AdminRoute, hl, hu]
  refine ⟨hp, ha, ?_⟩
  intro r hr hg
  have hrender : r.element.render s = Outcome.redirect "/login" := by
    cases he : r.element with
    | page p => simp [he, Element.privilege] at hg
    | protectedRoute c => simpa [Element.render] using hp c
    | adminRoute c => simpa [Element.render] using ha c
    | catchAll => simp [he, Element.privilege] at hg
  refine ⟨hrender, ?_⟩
  simp [navigate, selectRoute_declared m hm r hr, hrender]

theorem C2_no_user_redirects_to_login_witness :
    Matcher.Faithful exactMatch ∧
    (⟨none, false, false⟩ : Session).loading = false ∧
    (⟨none, false, false⟩ : Session).user = none ∧
    navigate exactMatch ⟨none, false, false⟩ "/settings" = some (Outcome.redirect "/login") :=
  ⟨exactMatch_faithful, rfl, rfl,
   ((C2_no_user_redirects_to_login exactMatch exactMatch_faithful ⟨none, false, false⟩
      rfl rfl).2.2 ⟨"/settings", Element.adminRoute Page.Settings⟩ (by decide)
      (Or.inr rfl)).2⟩

/-- C3, as stated, fails: a non-admin user whose session is still loading gets
`null` from `AdminRoute` on an admin-only route, not a redirect to `/dashboard`. -/
theorem C3_counterexample :
    (⟨some ⟨some (IdValue.num 7), "employee"⟩, true, false⟩ : Session).user ≠ none ∧
    (⟨some ⟨some (IdValue.num 7), "employee"⟩, true, false⟩ : Session).isAdmin = false ∧
    AdminRoute ⟨some ⟨some (IdValue.num 7), "employee"⟩, true, false⟩ Page.Reports
      = Outcome.nothing ∧
    navigate exactMatch ⟨some ⟨some (IdValue.num 7), "employee"⟩, true, false⟩ "/reports"
      = some Outcome.nothing ∧
    navigate exactMatch ⟨some ⟨some (IdValue.num 7), "employee"⟩, true, false⟩ "/reports"
      ≠ some (Outcome.redirect "/dashboard") := by
  decide

/-- C3, amended: for every session that has finished loading and carries a
non-admin user, `AdminRoute` redirects to `/dashboard`; the admin-only routes
are exactly `/admin-dashboard`, `/employees`, `/reports`, `/analysis` and
`/settings`, and navigating to any of them redirects to `/dashboard`. -/
theorem C3_non_admin_redirects_to_dashboard (m : Matcher) (hm : Matcher.Faithful m)
    (s : Session) (hl : s.loading = false) (hu : s.user ≠ none) (ha : s.isAdmin = false) :
    (∀ children, AdminRoute s children = Outcome.redirect "/dashboard") ∧
    (routes.filter (fun r => decide (r.element.privilege = some Privilege.admin))).map Route.path
      = ["/admin-dashboard", "/employees", "/reports", "/analysis", "/settings"] ∧
    (∀ r ∈ declaredRoutes, r.element.privilege = some Privilege.admin →
      r.element.render s = Outcome.redirect "/dashboard" ∧
      navigate m s r.path = some (Outcome.redirect "/dashboard")) := by
  have hg : ∀ children, AdminRoute s children = Outcome.redirect "/dashboard" := by
    intro c
    cases hv : s.user with
    | none => exact absurd hv hu
    | some u => simp [AdminRoute, hl, hv, ha]
  refine ⟨hg, by decide, ?_⟩
  intro r hr hp
  have hrender : r.element.render s = Outcome.redirect "/dashboard" := by
    cases he : r.element with
    | page p => simp [he, Element.privilege] at hp
    | protectedRoute c => simp [he, Element.privilege] at hp
    | adminRoute c => simpa [Element.render] using hg c
    | catchAll => simp [he, Element.privilege] at hp
  refine ⟨hrender, ?_⟩
  simp [navigate, selectRoute_declared m hm r hr, hrender]

theorem C3_non_admin_redirects_to_dashboard_witness :
    Matcher.Faithful exactMatch ∧
    (⟨some ⟨some (IdValue.num 7), "employee"⟩, false, false⟩ : Session).loading = false ∧
    (⟨some ⟨some (IdValue.num 7), "employee"⟩, false, false⟩ : Session).user ≠ none ∧
    (⟨some ⟨some (IdValue.num 7), "employee"⟩, false, false⟩ : Session).isAdmin = false ∧
    navigate exactMatch ⟨some ⟨some (IdValue.num 7), "employee"⟩, false, false⟩ "/employees"
      = some (Outcome.redirect "/dashboard") :=
  ⟨exactMatch_faithful, rfl, by decide, rfl,
   ((C3_non_admin_redirects_to_dashboard exactMatch exactMatch_faithful
      ⟨some ⟨some (IdValue.num 7), "employee"⟩, false, false⟩ rfl (by decide) rfl).2.2
      ⟨"/employees", Element.adminRoute Page.Employees⟩ (by decide) rfl).2⟩

/-- C4: at a location that no declared route matches, the router emits the
catch-all redirect, and evaluating the router again at the redirect target,
under the same session, selects a declared route whose element emits no
redirect: it is the landing page, or the guard around `Dashboard`, which
renders the page or renders nothing. The catch-all therefore cannot loop. -/
theorem C4_catch_all_target_is_stable (m : Matcher) (hm : Matcher.Faithful m) (s : Session)
    (location : String) (hu : Unmatched m location) :
    navigate m s location = some (Outcome.redirect (catchAllTarget s)) ∧
    catchAllTarget s ∈ declaredPaths ∧
    ∃ o, navigate m s (catchAllTarget s) = some o ∧
      o.isRedirect = false ∧
      (o = Outcome.bare Page.LandingPage ∨
       o = Outcome.container (Page.Dashboard false) ∨
       o = Outcome.container (Page.Dashboard true) ∨
       o = Outcome.nothing) := by
  refine ⟨by simp [navigate, selectRoute_unmatched m hm.1 location hu, Element.render], ?_⟩
  cases hv : s.user with
  | none =>
    have ht : catchAllTarget s = "/" := by simp [catchAllTarget, hv]
    have hsel := selectRoute_declared m hm ⟨"/", Element.page Page.LandingPage⟩ (by decide)
    rw [ht]
    refine ⟨by decide, Outcome.bare Page.LandingPage, ?_, rfl, Or.inl rfl⟩
    simp only [navigate]
    rw [hsel]
    rfl
  | some u =>
    cases hadm : s.isAdmin with
    | false =>
      have ht : catchAllTarget s = "/dashboard" := by simp [catchAllTarget, hv, hadm]
      have hsel := selectRoute_declared m hm
        ⟨"/dashboard", Element.protectedRoute (Page.Dashboard false)⟩ (by decide)
      rw [ht]
      refine ⟨by decide, ProtectedRoute s (Page.Dashboard false), ?_, ?_, ?_⟩
      · simp only [navigate]
        rw [hsel]
        rfl
      · cases hl : s.loading <;> simp [ProtectedRoute, hl, hv, Outcome.isRedirect]
      · cases hl : s.loading <;> simp [ProtectedRoute, hl, hv]
    | true =>
      have ht : catchAllTarget s = "/admin-dashboard" := by simp [catchAllTarget, hv, hadm]
      have hsel := selectRoute_declared m hm
        ⟨"/admin-dashboard", Element.adminRoute (Page.Dashboard true)⟩ (by decide)
      rw [ht]
      refine ⟨by decide, AdminRoute s (Page.Dashboard true), ?_, ?_, ?_⟩
      · simp only [navigate]
        rw [hsel]
        rfl
      · cases hl : s.loading <;> simp [AdminRoute, hl, hv, hadm, Outcome.isRedirect]
      · cases hl : s.loading <;> simp [AdminRoute, hl, hv, hadm]

theorem C4_catch_all_target_is_stable_witness :
    Matcher.Faithful exactMatch ∧ Unmatched exactMatch "/no-such-page" ∧
    navigate exactMatch ⟨some ⟨none, "employee"⟩, false, false⟩ "/no-such-page"
      = some (Outcome.redirect "/dashboard") ∧
    navigate exactMatch ⟨some ⟨none, "employee"⟩, false, false⟩ "/dashboard"
      = some (Outcome.container (Page.Dashboard false)) :=
  ⟨exactMatch_faithful, by decide,
   (C4_catch_all_target_is_stable exactMatch exactMatch_faithful
      ⟨some ⟨none, "employee"⟩, false, false⟩ "/no-such-page" (by decide)).1,
   by decide⟩

/-- C5: at every location that no declared route matches, the router redirects
to `catchAllTarget s`, which does not read the location: it is `/` when `user`
is null, `/dashboard` when a user is present and `isAdmin()` is false,
`/admin-dashboard` when a user is present and `isAdmin()` is true, and nothing
else; two unmatched locations get the same outcome. -/
theorem C5_catch_all_target_by_session (m : Matcher)
    (hstar : ∀ location, m "*" location = true) (s : Session)
    (location : String) (hu : Unmatched m location) :
    navigate m s location = some (Outcome.redirect (catchAllTarget s)) ∧
    (s.user = none → catchAllTarget s = "/") ∧
    (s.user ≠ none → s.isAdmin = false → catchAllTarget s = "/dashboard") ∧
    (s.user ≠ none → s.isAdmin = true → catchAllTarget s = "/admin-dashboard") ∧
    (catchAllTarget s = "/" ∨ catchAllTarget s = "/dashboard" ∨
      catchAllTarget s = "/admin-dashboard") ∧
    (∀ other, Unmatched m other → navigate m s other = navigate m s location) := by
  have hnav : ∀ l, Unmatched m l →
      navigate m s l = some (Outcome.redirect (catchAllTarget s)) := by
    intro l hl
    simp [navigate, selectRoute_unmatched m hstar l hl, Element.render]
  refine ⟨hnav location hu, ?_, ?_, ?_, ?_, ?_⟩
  · intro h; simp [catchAllTarget, h]
  · intro h ha
    cases hv : s.user with
    | none => exact absurd hv h
    | some u => simp [catchAllTarget, hv, ha]
  · intro h ha
    cases hv : s.user with
    | none => exact absurd hv h
    | some u => simp [catchAllTarget, hv, ha]
  · cases hv : s.user <;> cases ha : s.isAdmin <;> simp [catchAllTarget, hv, ha]
  · intro other ho
    rw [hnav other ho, hnav location hu]

theorem C5_catch_all_target_by_session_witness :
    (∀ location, exactMatch "*" location = true) ∧ Unmatched exactMatch "/x/y" ∧
    navigate exactMatch ⟨some ⟨some (IdValue.str "a1"), "admin"⟩, true, true⟩ "/x/y"
      = some (Outcome.redirect "/admin-dashboard") :=
  ⟨exactMatch_faithful.1, by decide,
   (C5_catch_all_target_by_session exactMatch exactMatch_faithful.1
      ⟨some ⟨some (IdValue.str "a1"), "admin"⟩, true, true⟩ "/x/y" (by decide)).1⟩

/-- C10: the route table declares exactly twelve paths besides the catch-all,
with these privileges: `/`, `/login`, `/setup` are unguarded; `/dashboard`,
`/performance`, `/training`, `/profile` are wrapped in `ProtectedRoute`;
`/admin-dashboard`, `/employees`, `/reports`, `/analysis`, `/settings` are
wrapped in `AdminRoute`. -/
theorem C10_route_table_privileges :
    routes.map (fun r => (r.path, r.element.privilege)) =
      [ ("/", some Privilege.pub),
        ("/login", some Privilege.pub),
        ("/setup", some Privilege.pub),
        ("/dashboard", some Privilege.authenticated),
        ("/admin-dashboard", some Privilege.admin),
        ("/performance", some Privilege.authenticated),
        ("/training", some Privilege.authenticated),
        ("/employees", some Privilege.admin),
        ("/reports", some Privilege.admin),
        ("/analysis", some Privilege.admin),
        ("/profile", some Privilege.authenticated),
        ("/settings", some Privilege.admin),
        ("*", none) ] ∧
    (∀ r ∈ routes, r.element.privilege = some Privilege.pub ↔
      r.path ∈ ["/", "/login", "/setup"]) ∧
    (∀ r ∈ routes, r.element.privilege = some Privilege.authenticated ↔
      r.path ∈ ["/dashboard", "/performance", "/training", "/profile"]) ∧
    (∀ r ∈ routes, r.element.privilege = some Privilege.admin ↔
      r.path ∈ ["/admin-dashboard", "/employees", "/reports", "/analysis", "/settings"]) ∧
    (∀ r ∈ routes, r.element = Element.catchAll ↔ r.path = "*") := by
  refine ⟨by decide, by decide, by decide, by decide, by decide⟩

/-! ## Properties of the dashboard load and of the report actions -/

theorem fetchData_log_admin (api : Api) (adminView : Bool) (auth : Session)
    (st : DashboardState) (h : (adminView && auth.isAdmin) = true) :
    Effect.getAllAnalyses ∈ (fetchData api adminView auth st).2 := by
  cases hr : api.getAllAnalyses <;> simp [fetchData, fetchDataTry, h, hr]

theorem fetchData_log_employee (api : Api) (adminView : Bool) (auth : Session)
    (st : DashboardState) (h : (adminView && auth.isAdmin) = false) :
    Effect.getEmployeeAnalysis (employeeIdOf auth.user) ∈ (fetchData api adminView auth st).2 ∧
    Effect.getAllAnalyses ∉ (fetchData api adminView auth st).2 ∧
    (fetchData api adminView auth st).1.adminData = st.adminData := by
  cases hr : api.getEmployeeAnalysis (employeeIdOf auth.user) <;>
    simp [fetchData, fetchDataTry, h, hr]

theorem runDomSteps_none_iff (browser : Browser) (steps : List DomStep) :
    (runDomSteps browser steps).1 = none ↔ ∀ step ∈ steps, browser.completes step = true := by
  induction steps with
  | nil => simp [runDomSteps]
  | cons a t ih =>
    cases hc : browser.completes a <;> simp [runDomSteps, hc, ih]

theorem runDomSteps_no_toast (browser : Browser) (steps : List DomStep) :
    (runDomSteps browser steps).2.filter Effect.isToast = [] := by
  induction steps with
  | nil => simp [runDomSteps]
  | cons a t ih =>
    cases hc : browser.completes a <;> simp [runDomSteps, hc, ih, Effect.isToast]

/-- C6: for a session whose `isAdmin()` is false, and for either value of
`adminView`, the load calls `EmployeeService.getEmployeeAnalysis` (with the id
`user?.id || '1'`) and never `AdminService.getAllAnalyses`, and leaves
`adminData` as it was; the final `return` of the render selects
`renderEmployeeDashboard`, the view is never the admin dashboard, and after a
successful load it is the employee dashboard. For any session,
`getAllAnalyses` is called exactly when `adminView` and `isAdmin()` are both
true. -/
theorem C6_non_admin_session_loads_employee_data (api : Api) (adminView : Bool)
    (auth : Session) (st : DashboardState) (hna : auth.isAdmin = false) :
    Effect.getEmployeeAnalysis (employeeIdOf auth.user) ∈ (fetchData api adminView auth st).2 ∧
    Effect.getAllAnalyses ∉ (fetchData api adminView auth st).2 ∧
    (fetchData api adminView auth st).1.adminData = st.adminData ∧
    selectedRenderer adminView auth = Renderer.employee ∧
    (∀ v, Dashboard adminView auth (fetchData api adminView auth st).1 ≠ View.adminDashboard v) ∧
    (∀ data, api.getEmployeeAnalysis (employeeIdOf auth.user) = Except.ok data →
      (fetchData api adminView auth st).1.employeeData = some data ∧
      ∃ v, Dashboard adminView auth (fetchData api adminView auth st).1
        = View.employeeDashboard v) ∧
    (∀ (anyView : Bool) (anyAuth : Session),
      Effect.getAllAnalyses ∈ (fetchData api anyView anyAuth st).2 ↔
        (anyView = true ∧ anyAuth.isAdmin = true)) := by
  have hcond : (adminView && auth.isAdmin) = false := by simp [hna]
  have hlog := fetchData_log_employee api adminView auth st hcond
  have hsel : selectedRenderer adminView auth = Renderer.employee := by
    simp [selectedRenderer, hna]
  refine ⟨hlog.1, hlog.2.1, hlog.2.2, hsel, ?_, ?_, ?_⟩
  · intro v
    unfold Dashboard
    rw [hsel]
    cases (fetchData api adminView auth st).1.loading
    · cases (fetchData api adminView auth st).1.error with
      | none =>
        cases hd : (fetchData api adminView auth st).1.employeeData <;>
          simp [renderEmployeeDashboard, hd]
      | some msg =>
        by_cases hm : msg = ""
        · cases hd : (fetchData api adminView auth st).1.employeeData <;>
            simp [renderEmployeeDashboard, hd, hm]
        · simp [hm]
    · simp
  · intro data hok
    have hst : (fetchData api adminView auth st).1
        = { st with loading := false, error := none, employeeData := some data } := by
      simp [fetchData, fetchDataTry, hcond, hok]
    rw [hst]
    refine ⟨rfl, ?_⟩
    simp [Dashboard, hsel, renderEmployeeDashboard]
  · intro anyView anyAuth
    cases hc : (anyView && anyAuth.isAdmin) with
    | true =>
      have h1 := fetchData_log_admin api anyView anyAuth st hc
      simp only [Bool.and_eq_true] at hc
      exact ⟨fun _ => hc, fun _ => h1⟩
    | false =>
      have h2 := (fetchData_log_employee api anyView anyAuth st hc).2.1
      constructor
      · intro h; exact absurd h h2
      · intro h
        rw [h.1, h.2] at hc
        exact absurd hc (by decide)

theorem C6_non_admin_session_loads_employee_data_witness :
    (⟨some ⟨some (IdValue.num 7), "employee"⟩, false, false⟩ : Session).isAdmin = false ∧
    Effect.getEmployeeAnalysis (IdValue.num 7) ∈
      (fetchData workingApi true ⟨some ⟨some (IdValue.num 7), "employee"⟩, false, false⟩
        DashboardState.initial).2 ∧
    Effect.getAllAnalyses ∉
      (fetchData workingApi true ⟨some ⟨some (IdValue.num 7), "employee"⟩, false, false⟩
        DashboardState.initial).2 :=
  ⟨rfl,
   (C6_non_admin_session_loads_employee_data workingApi true
      ⟨some ⟨some (IdValue.num 7), "employee"⟩, false, false⟩ DashboardState.initial rfl).1,
   (C6_non_admin_session_loads_employee_data workingApi true
      ⟨some ⟨some (IdValue.num 7), "employee"⟩, false, false⟩ DashboardState.initial rfl).2.1⟩

/-- C7: when the service call made by a load rejects, then from any prior state
(stale `employeeData` or `adminData` included) the load ends with
`loading = false` and `error = 'Data Loading Error'`, the rejection is logged,
no second call is made, and the render that follows is the error alert with
that message: neither dashboard renderer contributes to it. -/
theorem C7_failed_load_shows_generic_error (api : Api) (adminView : Bool) (auth : Session)
    (st : DashboardState)
    (hadmin : (adminView && auth.isAdmin) = true → ∃ err, api.getAllAnalyses = Except.error err)
    (hemp : (adminView && auth.isAdmin) = false →
      ∃ err, api.getEmployeeAnalysis (employeeIdOf auth.user) = Except.error err) :
    (fetchData api adminView auth st).1.loading = false ∧
    (fetchData api adminView auth st).1.error = some "Data Loading Error" ∧
    Dashboard adminView auth (fetchData api adminView auth st).1
      = View.errorAlert "Data Loading Error" ∧
    (Dashboard adminView auth (fetchData api adminView auth st).1).showsAnalysis = false ∧
    (∃ call err, (fetchData api adminView auth st).2
      = [call, Effect.consoleError "Veri yükleme hatası:" (Thrown.api err)]) := by
  have hst : (fetchData api adminView auth st).1
      = { st with loading := false, error := some "Data Loading Error" } ∧
      ∃ call err, (fetchData api adminView auth st).2
        = [call, Effect.consoleError "Veri yükleme hatası:" (Thrown.api err)] := by
    cases hc : (adminView && auth.isAdmin) with
    | true =>
      obtain ⟨err, he⟩ := hadmin hc
      exact ⟨by simp [fetchData, fetchDataTry, hc, he],
        Effect.getAllAnalyses, err, by simp [fetchData, fetchDataTry, hc, he]⟩
    | false =>
      obtain ⟨err, he⟩ := hemp hc
      exact ⟨by simp [fetchData, fetchDataTry, hc, he],
        Effect.getEmployeeAnalysis (employeeIdOf auth.user), err,
        by simp [fetchData, fetchDataTry, hc, he]⟩
  have hview : Dashboard adminView auth (fetchData api adminView auth st).1
      = View.errorAlert "Data Loading Error" := by
    rw [hst.1]
    simp [Dashboard]
  refine ⟨by rw [hst.1], by rw [hst.1], hview, ?_, hst.2⟩
  rw [hview]
  rfl

theorem C7_failed_load_shows_generic_error_witness :
    ((true && (⟨some ⟨none, "admin"⟩, false, true⟩ : Session).isAdmin) = true →
      ∃ err, failingApi.getAllAnalyses = Except.error err) ∧
    ((true && (⟨some ⟨none, "admin"⟩, false, true⟩ : Session).isAdmin) = false →
      ∃ err, failingApi.getEmployeeAnalysis
        (employeeIdOf (⟨some ⟨none, "admin"⟩, false, true⟩ : Session).user)
          = Except.error err) ∧
    staleState.adminData ≠ none ∧
    Dashboard true ⟨some ⟨none, "admin"⟩, false, true⟩
      (fetchData failingApi true ⟨some ⟨none, "admin"⟩, false, true⟩ staleState).1
        = View.errorAlert "Data Loading Error" :=
  ⟨fun _ => ⟨⟨"Network Error"⟩, rfl⟩, fun _ => ⟨⟨"Network Error"⟩, rfl⟩, by decide,
   (C7_failed_load_shows_generic_error failingApi true ⟨some ⟨none, "admin"⟩, false, true⟩
      staleState (fun _ => ⟨⟨"Network Error"⟩, rfl⟩) (fun _ => ⟨⟨"Network Error"⟩, rfl⟩)).2.2.1⟩

/-- A download in a browser where `link.click()` throws: the statements up to
the click run, the error is logged, and the error toast is the only toast. -/
theorem handleGenerateReport_click_throws :
    handleGenerateReport workingApi clickFailsBrowser
        ⟨some ⟨some (IdValue.num 7), "employee"⟩, false, false⟩
      = [ Effect.getReport (IdValue.num 7),
          Effect.dom DomStep.createObjectURL,
          Effect.dom DomStep.createElement,
          Effect.dom DomStep.setHref,
          Effect.dom (DomStep.setDownload "employee_7_report.pdf"),
          Effect.dom DomStep.appendChild,
          Effect.dom DomStep.click,
          Effect.consoleError "Report download error:" (Thrown.dom DomStep.click),
          Effect.toast ToastStatus.error "Report download failed" ] := by
  decide

/-- A download that goes through: the service call, the seven DOM statements,
then the success toast. -/
theorem handleGenerateReport_success :
    handleGenerateReport workingApi workingBrowser ⟨none, false, false⟩
      = [ Effect.getReport (IdValue.str "1"),
          Effect.dom DomStep.createObjectURL,
          Effect.dom DomStep.createElement,
          Effect.dom DomStep.setHref,
          Effect.dom (DomStep.setDownload "employee_1_report.pdf"),
          Effect.dom DomStep.appendChild,
          Effect.dom DomStep.click,
          Effect.dom DomStep.removeChild,
          Effect.toast ToastStatus.success "Report downloaded" ] := by
  decide

/-- C8: every invocation of `handleGenerateReport` and of
`handleGenerateAllReports` surfaces exactly one toast. It is the success toast
exactly when the service call resolves and, for the download, every DOM
statement after it completes; it is the error toast exactly when one of them
throws. -/
theorem C8_exactly_one_notification (api : Api) (browser : Browser) (auth : Session) :
    ((handleGenerateReport api browser auth).filter Effect.isToast).length = 1 ∧
    ((handleGenerateAllReports api).filter Effect.isToast).length = 1 ∧
    ((handleGenerateReport api browser auth).filter Effect.isToast
        = [Effect.toast ToastStatus.success "Report downloaded"] ↔
      ((∃ blob, api.getReport (employeeIdOf auth.user) = Except.ok blob) ∧
        ∀ step ∈ downloadSteps (employeeIdOf auth.user), browser.completes step = true)) ∧
    ((handleGenerateReport api browser auth).filter Effect.isToast
        = [Effect.toast ToastStatus.error "Report download failed"] ↔
      ¬ ((∃ blob, api.getReport (employeeIdOf auth.user) = Except.ok blob) ∧
        ∀ step ∈ downloadSteps (employeeIdOf auth.user), browser.completes step = true)) ∧
    ((handleGenerateAllReports api).filter Effect.isToast
        = [Effect.toast ToastStatus.success "Reports generated"] ↔
      api.generateReports = Except.ok ()) ∧
    ((handleGenerateAllReports api).filter Effect.isToast
        = [Effect.toast ToastStatus.error "Reports generation failed"] ↔
      ∃ err, api.generateReports = Except.error err) := by
  have hallOk : api.generateReports = Except.ok () →
      (handleGenerateAllReports api).filter Effect.isToast
        = [Effect.toast ToastStatus.success "Reports generated"] := by
    intro hr
    simp [handleGenerateAllReports, handleGenerateAllReportsTry, hr, Effect.isToast]
  have hallErr : ∀ err, api.generateReports = Except.error err →
      (handleGenerateAllReports api).filter Effect.isToast
        = [Effect.toast ToastStatus.error "Reports generation failed"] := by
    intro err hr
    simp [handleGenerateAllReports, handleGenerateAllReportsTry, hr, Effect.isToast]
  have hallCases : api.generateReports = Except.ok () ∨
      ∃ err, api.generateReports = Except.error err := by
    cases hr : api.generateReports with
    | ok u => exact Or.inl rfl
    | error err => exact Or.inr ⟨err, rfl⟩
  have honeOk : ((∃ blob, api.getReport (employeeIdOf auth.user) = Except.ok blob) ∧
      ∀ step ∈ downloadSteps (employeeIdOf auth.user), browser.completes step = true) →
      (handleGenerateReport api browser auth).filter Effect.isToast
        = [Effect.toast ToastStatus.success "Report downloaded"] := by
    rintro ⟨⟨blob, hr⟩, hc⟩
    have hnt := runDomSteps_no_toast browser (downloadSteps (employeeIdOf auth.user))
    have hnone := (runDomSteps_none_iff browser (downloadSteps (employeeIdOf auth.user))).mpr hc
    cases hd : runDomSteps browser (downloadSteps (employeeIdOf auth.user)) with
    | mk thrown log =>
      rw [hd] at hnt hnone
      simp only at hnt hnone
      subst hnone
      simp [handleGenerateReport, handleGenerateReportTry, hr, hd, Effect.isToast,
        List.filter_cons, hnt]
  have honeErr : ¬ ((∃ blob, api.getReport (employeeIdOf auth.user) = Except.ok blob) ∧
      ∀ step ∈ downloadSteps (employeeIdOf auth.user), browser.completes step = true) →
      (handleGenerateReport api browser auth).filter Effect.isToast
        = [Effect.toast ToastStatus.error "Report download failed"] := by
    intro hneg
    cases hr : api.getReport (employeeIdOf auth.user) with
    | error err =>
      simp [handleGenerateReport, handleGenerateReportTry, hr, Effect.isToast]
    | ok blob =>
      have hnt := runDomSteps_no_toast browser (downloadSteps (employeeIdOf auth.user))
      have hiff := runDomSteps_none_iff browser (downloadSteps (employeeIdOf auth.user))
      cases hd : runDomSteps browser (downloadSteps (employeeIdOf auth.user)) with
      | mk thrown log =>
        rw [hd] at hnt hiff
        simp only at hnt hiff
        cases thrown with
        | none => exact absurd ⟨⟨blob, hr⟩, hiff.mp rfl⟩ hneg
        | some step =>
          simp [handleGenerateReport, handleGenerateReportTry, hr, hd, Effect.isToast,
            List.filter_cons, hnt]
  refine ⟨?_, ?_, ?_, ?_, ?_, ?_⟩
  · by_cases hP : ((∃ blob, api.getReport (employeeIdOf auth.user) = Except.ok blob) ∧
        ∀ step ∈ downloadSteps (employeeIdOf auth.user), browser.completes step = true)
    · rw [honeOk hP]; rfl
    · rw [honeErr hP]; rfl
  · rcases hallCases with h | ⟨err, h⟩
    · rw [hallOk h]; rfl
    · rw [hallErr err h]; rfl
  · constructor
    · intro h
      by_contra hP
      rw [honeErr hP] at h
      simp at h
    · exact honeOk
  · constructor
    · intro h hP
      rw [honeOk hP] at h
      simp at h
    · exact honeErr
  · constructor
    · intro h
      rcases hallCases with hok | ⟨err, herr⟩
      · exact hok
      · rw [hallErr err herr] at h
        simp at h
    · exact hallOk
  · constructor
    · intro h
      rcases hallCases with hok | ⟨err, herr⟩
      · rw [hallOk hok] at h
        simp at h
      · exact ⟨err, herr⟩
    · rintro ⟨err, herr⟩
      exact hallErr err herr

/-! ## Properties of the number operations and of the summary labels -/

namespace Double

theorem log2Steps_spec : ∀ (fuel n : Nat), 1 ≤ n → n ≤ fuel →
    2 ^ log2Steps fuel n ≤ n ∧ n < 2 ^ (log2Steps fuel n + 1)
  | 0, n, h1, h2 => by omega
  | fuel + 1, n, h1, h2 => by
    unfold log2Steps
    split
    · simp; omega
    · have ih := log2Steps_spec fuel (n / 2) (by omega) (by omega)
      rw [pow_succ, pow_succ]
      rw [pow_succ] at ih
      omega

theorem log2_spec (n : Nat) (h : 1 ≤ n) : 2 ^ log2 n ≤ n ∧ n < 2 ^ (log2 n + 1) :=
  log2Steps_spec n n h (le_refl n)

theorem divNearestEven_one (n : Nat) : divNearestEven n 1 = n := by
  simp [divNearestEven, Nat.mod_one]

theorem log2_one : log2 1 = 0 := by decide

/-- A natural number up to `2^53` converts to a number without rounding. -/
theorem ofQuotient_nat_form (s : Bool) (k : Nat) (hk : k ≤ 2 ^ 53) :
    ∃ m e, ofQuotient s k 1 = fin s m e ∧
      toInt (fin s m e) = some ((if s then -1 else 1) * (k : Int)) := by
  by_cases h0 : k = 0
  · subst h0
    exact ⟨0, -1074, by simp [ofQuotient], by simp [toInt, magNum]⟩
  · by_cases htop : k = 2 ^ 53
    · subst htop
      refine ⟨2 ^ 52, 1, ?_, ?_⟩
      · cases s <;> decide
      · cases s <;> decide
    · have hlt : k < 2 ^ 53 := lt_of_le_of_ne hk htop
      have hpos : 1 ≤ k := Nat.one_le_iff_ne_zero.mpr h0
      obtain ⟨hlo, hhi⟩ := log2_spec k hpos
      have ha : log2 k ≤ 52 := by
        by_contra hcon
        have h53 : 53 ≤ log2 k := by omega
        have : 2 ^ 53 ≤ 2 ^ log2 k := Nat.pow_le_pow_right (by decide) h53
        omega
      obtain ⟨j, hj⟩ : ∃ j, j = 52 - log2 k := ⟨_, rfl⟩
      have hbe : binaryExponent k 1 = (log2 k : Int) := by
        unfold binaryExponent
        simp only [log2_one]
        have hnot : ¬ k * 2 ^ 0 < 1 * 2 ^ log2 k := by
          rw [pow_zero, mul_one, one_mul]
          exact Nat.not_lt.mpr hlo
        rw [if_neg hnot]
        simp
      have he : max (binaryExponent k 1 - 52) (-1074) = -(j : Int) := by
        rw [hbe]; omega
      have hm : k * 2 ^ j < 2 ^ 53 := by
        have h1 : k * 2 ^ j < 2 ^ (log2 k + 1) * 2 ^ j :=
          Nat.mul_lt_mul_of_pos_right hhi (Nat.two_pow_pos j)
        have h2 : 2 ^ (log2 k + 1) * 2 ^ j = 2 ^ 53 := by
          rw [← pow_add]; congr 1; omega
        omega
      refine ⟨k * 2 ^ j, -(j : Int), ?_, ?_⟩
      · unfold ofQuotient
        simp only [h0, if_false, he]
        have e1 : (-(-(j : Int))).toNat = j := by simp
        have e2 : (-(j : Int)).toNat = 0 := by simp
        simp only [e1, e2, pow_zero, mul_one, divNearestEven_one]
        have hne : ¬ k * 2 ^ j = 2 ^ 53 := by omega
        simp only [hne, if_false]
        have : ¬ (971 : Int) < -(j : Int) := by omega
        simp [this]
      · have e1 : (-(-(j : Int))).toNat = j := by simp
        have e2 : (-(j : Int)).toNat = 0 := by simp
        simp only [toInt, magNum, magDen, e1, e2, pow_zero, mul_one]
        have hmod : k * 2 ^ j % 2 ^ j = 0 := Nat.mul_mod_left k (2 ^ j)
        have hdiv : k * 2 ^ j / 2 ^ j = k := Nat.mul_div_cancel k (Nat.two_pow_pos j)
        simp [hmod, hdiv]

theorem numberToString_of_toInt (s : Bool) (m : Nat) (e i : Int)
    (h : toInt (fin s m e) = some i) (hi : i.natAbs ≤ 2 ^ 53) :
    numberToString (fin s m e) = some (toString i) := by
  simp only [numberToString]
  rw [h]
  simp only []
  rw [if_pos hi]

theorem sign_mul_natAbs_of_nonneg (s : Bool) (z : Int)
    (hs : s = false → 0 ≤ z) (ht : s = true → z ≤ 0) :
    (if s then -1 else 1) * ((z.natAbs : Nat) : Int) = z := by
  cases s with
  | false =>
    have := hs rfl
    simp only [Bool.false_eq_true, if_false]
    omega
  | true =>
    have := ht rfl
    simp only [if_true]
    omega

/-- `Math.round` followed by `Number::toString` prints the exact value of the
argument rounded to the nearest integer, halves up. -/
theorem numberToString_mathRound (s : Bool) (m : Nat) (e : Int) (p : ℚ)
    (hp : toRat (fin s m e) = some p) (hr : ⌊p + 1 / 2⌋.natAbs ≤ 2 ^ 53) :
    numberToString (mathRound (fin s m e)) = some (toString ⌊p + 1 / 2⌋) := by
  simp only [toRat, Option.some.injEq] at hp
  by_cases he : 0 ≤ e
  · have hden : magDen e = 1 := by
      unfold magDen
      have : (-e).toNat = 0 := by omega
      rw [this, pow_zero]
    have hfloor : ⌊p + 1 / 2⌋ = (if s then -1 else 1) * ((magNum m e : Nat) : Int) := by
      rw [Int.floor_eq_iff, ← hp, hden]
      cases s <;> constructor <;> push_cast <;> norm_num
    have hti : toInt (fin s m e) = some ⌊p + 1 / 2⌋ := by
      simp only [toInt]
      rw [hden, Nat.mod_one, if_pos rfl, Nat.div_one, hfloor]
    have hround : mathRound (fin s m e) = fin s m e := by
      simp [mathRound, he]
    rw [hround]
    exact numberToString_of_toInt s m e _ hti hr
  · have hneg : e < 0 := not_le.mp he
    have hnum : magNum m e = m := by
      unfold magNum
      have : e.toNat = 0 := by omega
      rw [this, pow_zero, mul_one]
    have hdpos : 0 < magDen e := Nat.two_pow_pos _
    have hfloor : ⌊p + 1 / 2⌋
        = (2 * ((if s then -1 else 1) * (m : Int)) + (magDen e : Int)) / (2 * (magDen e : Int)) := by
      have hq : p + 1 / 2
          = (((2 * ((if s then -1 else 1) * (m : Int)) + (magDen e : Int) : Int) : ℚ))
              / (((2 * magDen e : Nat) : ℚ)) := by
        rw [← hp, hnum]
        have hd0 : ((magDen e : Nat) : ℚ) ≠ 0 := by exact_mod_cast hdpos.ne'
        cases s <;> push_cast <;> field_simp <;> ring
      rw [hq, Rat.floor_intCast_div_natCast]
      push_cast
      rfl
    have hround : mathRound (fin s m e)
        = ofQuotient s ⌊p + 1 / 2⌋.natAbs 1 := by
      simp only [mathRound, if_neg he, hfloor]
    have hsign : (if s then -1 else 1) * ((⌊p + 1 / 2⌋.natAbs : Nat) : Int) = ⌊p + 1 / 2⌋ := by
      apply sign_mul_natAbs_of_nonneg
      · intro hs
        rw [hfloor, hs]
        apply Int.ediv_nonneg
        · simp only [Bool.false_eq_true, if_false]
          omega
        · omega
      · intro hs
        rw [hfloor, hs]
        have hd : (0 : Int) < 2 * (magDen e : Int) := by omega
        have hlt : (2 * ((if true = true then -1 else 1) * (m : Int)) + (magDen e : Int))
            / (2 * (magDen e : Int)) < 1 := by
          apply Int.ediv_lt_of_lt_mul hd
          simp only [if_true]
          omega
        omega
    obtain ⟨m1, e1, hform, hti⟩ := ofQuotient_nat_form s ⌊p + 1 / 2⌋.natAbs hr
    rw [hsign] at hti
    rw [hround, hform]
    exact numberToString_of_toInt s m1 e1 _ hti hr

theorem magNum_div_magDen (m : Nat) (e : Int) :
    (magNum m e : ℚ) / (magDen e : ℚ) = (m : ℚ) * (2 : ℚ) ^ e := by
  unfold magNum magDen
  rcases le_or_lt 0 e with he | he
  · obtain ⟨k, rfl⟩ := Int.eq_ofNat_of_zero_le he
    simp
  · obtain ⟨k, hk⟩ : ∃ k : Nat, e = -(k : Int) := ⟨(-e).toNat, by omega⟩
    subst hk
    have h1 : (-(k : Int)).toNat = 0 := by omega
    simp [h1, zpow_neg, div_eq_mul_inv]

theorem divNearestEven_spec (n d : Nat) (hd : 0 < d) :
    |((divNearestEven n d : Nat) : ℚ) - (n : ℚ) / (d : ℚ)| ≤ 1 / 2 := by
  have hdq : (0 : ℚ) < (d : ℚ) := by exact_mod_cast hd
  have hsplit : (n : ℚ) = (d : ℚ) * ((n / d : Nat) : ℚ) + ((n % d : Nat) : ℚ) := by
    exact_mod_cast (Nat.div_add_mod n d).symm
  have hr : ((n % d : Nat) : ℚ) < (d : ℚ) := by exact_mod_cast Nat.mod_lt n hd
  have hr0 : (0 : ℚ) ≤ ((n % d : Nat) : ℚ) := by positivity
  have hquot : (n : ℚ) / (d : ℚ) = ((n / d : Nat) : ℚ) + ((n % d : Nat) : ℚ) / (d : ℚ) := by
    rw [eq_comm, ← sub_eq_zero]
    field_simp
    linarith
  rw [hquot]
  unfold divNearestEven
  simp only []
  split_ifs with h1 h2 h3
  · have : (2 : ℚ) * ((n % d : Nat) : ℚ) < (d : ℚ) := by exact_mod_cast h1
    rw [abs_le]
    constructor
    · have : ((n % d : Nat) : ℚ) / (d : ℚ) ≤ 1 / 2 := by
        rw [div_le_iff₀ hdq]; linarith
      linarith
    · have : 0 ≤ ((n % d : Nat) : ℚ) / (d : ℚ) := by positivity
      linarith
  · have h2q : (d : ℚ) < 2 * ((n % d : Nat) : ℚ) := by exact_mod_cast h2
    have hlo : (1 : ℚ) / 2 ≤ ((n % d : Nat) : ℚ) / (d : ℚ) := by
      rw [le_div_iff₀ hdq]; linarith
    have hhi : ((n % d : Nat) : ℚ) / (d : ℚ) ≤ 1 := by
      rw [div_le_iff₀ hdq]; linarith
    rw [abs_le]
    push_cast
    constructor <;> linarith
  · have heq : (2 : ℚ) * ((n % d : Nat) : ℚ) = (d : ℚ) := by
      have : 2 * (n % d) = d := by omega
      exact_mod_cast this
    have hhalf : ((n % d : Nat) : ℚ) / (d : ℚ) = 1 / 2 := by
      rw [div_eq_iff hdq.ne']; linarith
    rw [hhalf, abs_le]
    constructor <;> linarith
  · have heq : (2 : ℚ) * ((n % d : Nat) : ℚ) = (d : ℚ) := by
      have : 2 * (n % d) = d := by omega
      exact_mod_cast this
    have hhalf : ((n % d : Nat) : ℚ) / (d : ℚ) = 1 / 2 := by
      rw [div_eq_iff hdq.ne']; linarith
    rw [hhalf, abs_le]
    push_cast
    constructor <;> linarith

theorem binaryExponent_le (n d : Nat) (hn : 0 < n) (hd : 0 < d) :
    (2 : ℚ) ^ binaryExponent n d ≤ (n : ℚ) / (d : ℚ) := by
  obtain ⟨ha, _⟩ := log2_spec n hn
  obtain ⟨_, hb⟩ := log2_spec d hd
  have hdq : (0 : ℚ) < (d : ℚ) := by exact_mod_cast hd
  have h2 : (2 : ℚ) ≠ 0 := two_ne_zero
  unfold binaryExponent
  simp only []
  split_ifs with hlt
  · have hz : (2 : ℚ) ^ ((log2 n : Int) - (log2 d : Int) - 1)
        = (2 : ℚ) ^ log2 n / (2 : ℚ) ^ (log2 d + 1) := by
      rw [sub_sub, zpow_sub₀ h2]
      norm_cast
    rw [hz, div_le_div_iff₀ (by positivity) hdq]
    have hnat : 2 ^ log2 n * d ≤ n * 2 ^ (log2 d + 1) :=
      le_trans (Nat.mul_le_mul_left _ hb.le) (Nat.mul_le_mul_right _ ha)
    exact_mod_cast hnat
  · have hz : (2 : ℚ) ^ ((log2 n : Int) - (log2 d : Int))
        = (2 : ℚ) ^ log2 n / (2 : ℚ) ^ log2 d := by
      rw [zpow_sub₀ h2]
      norm_cast
    rw [hz, div_le_div_iff₀ (by positivity) hdq]
    have hnat : 2 ^ log2 n * d ≤ n * 2 ^ log2 d := by
      have := Nat.not_lt.mp hlt
      rw [Nat.mul_comm d] at this
      exact this
    exact_mod_cast hnat

theorem scaled_quotient (n d : Nat) (e : Int) :
    ((n * 2 ^ (-e).toNat : Nat) : ℚ) / ((d * 2 ^ e.toNat : Nat) : ℚ)
      = (n : ℚ) / (d : ℚ) * (2 : ℚ) ^ (-e) := by
  rcases le_or_lt 0 e with he | he
  · obtain ⟨k, rfl⟩ := Int.eq_ofNat_of_zero_le he
    have h1 : (-(k : Int)).toNat = 0 := by omega
    simp [h1, zpow_neg, div_eq_mul_inv]
    ring
  · obtain ⟨k, hk⟩ : ∃ k : Nat, e = -(k : Int) := ⟨(-e).toNat, by omega⟩
    subst hk
    have h1 : (-(k : Int)).toNat = 0 := by omega
    simp [h1]
    ring

/-- The conversion of a positive rational to a number is within half a unit in
the last place: the relative error is at most `2^-53`, or, in the subnormal
range, the absolute error is at most `2^-1075`. -/
theorem ofQuotient_error (s : Bool) (n d : Nat) (hn : 0 < n) (hd : 0 < d)
    (t : Bool) (m : Nat) (e : Int) (h : ofQuotient s n d = fin t m e) :
    t = s ∧
    |(m : ℚ) * (2 : ℚ) ^ e - (n : ℚ) / (d : ℚ)|
      ≤ max ((n : ℚ) / (d : ℚ) / 2 ^ 53) ((2 : ℚ) ^ (-1075 : Int)) := by
  have h2 : (2 : ℚ) ≠ 0 := two_ne_zero
  obtain ⟨e0, he0⟩ : ∃ e0 : Int, e0 = max (binaryExponent n d - 52) (-1074) := ⟨_, rfl⟩
  obtain ⟨m0, hm0⟩ : ∃ m0 : Nat,
      m0 = divNearestEven (n * 2 ^ (-e0).toNat) (d * 2 ^ e0.toNat) := ⟨_, rfl⟩
  have hD : 0 < d * 2 ^ e0.toNat := Nat.mul_pos hd (Nat.two_pow_pos _)
  have hround := divNearestEven_spec (n * 2 ^ (-e0).toNat) (d * 2 ^ e0.toNat) hD
  rw [← hm0, scaled_quotient] at hround
  have hpos : (0 : ℚ) < (2 : ℚ) ^ e0 := zpow_pos (by norm_num) e0
  -- the value before renormalisation is within half a unit of the quotient
  have hval : |(m0 : ℚ) * (2 : ℚ) ^ e0 - (n : ℚ) / (d : ℚ)| ≤ (2 : ℚ) ^ (e0 - 1) := by
    have hfac : (m0 : ℚ) * (2 : ℚ) ^ e0 - (n : ℚ) / (d : ℚ)
        = ((m0 : ℚ) - (n : ℚ) / (d : ℚ) * (2 : ℚ) ^ (-e0)) * (2 : ℚ) ^ e0 := by
      rw [sub_mul, mul_assoc, ← zpow_add₀ h2]
      simp
    rw [hfac, abs_mul, abs_of_pos hpos, zpow_sub_one₀ h2]
    calc |(m0 : ℚ) - (n : ℚ) / (d : ℚ) * (2 : ℚ) ^ (-e0)| * (2 : ℚ) ^ e0
        ≤ 1 / 2 * (2 : ℚ) ^ e0 := mul_le_mul_of_nonneg_right hround hpos.le
      _ = (2 : ℚ) ^ e0 * 2⁻¹ := by ring
  have hbound : (2 : ℚ) ^ (e0 - 1)
      ≤ max ((n : ℚ) / (d : ℚ) / 2 ^ 53) ((2 : ℚ) ^ (-1075 : Int)) := by
    rcases le_total (binaryExponent n d - 52) (-1074) with hc | hc
    · have : e0 = -1074 := by rw [he0]; exact max_eq_right hc
      rw [this]
      exact le_max_of_le_right (le_of_eq (by norm_num))
    · have : e0 = binaryExponent n d - 52 := by rw [he0]; exact max_eq_left hc
      rw [this]
      apply le_max_of_le_left
      have hz : (2 : ℚ) ^ (binaryExponent n d - 52 - 1)
          = (2 : ℚ) ^ binaryExponent n d / 2 ^ 53 := by
        rw [sub_sub, zpow_sub₀ h2]
        norm_num
      rw [hz]
      exact div_le_div_of_nonneg_right (binaryExponent_le n d hn hd) (by positivity)
  unfold ofQuotient at h
  rw [if_neg hn.ne'] at h
  simp only [← he0, ← hm0] at h
  by_cases htop : m0 = 2 ^ 53
  · simp only [htop, if_true] at h
    split_ifs at h with hover
    injection h with hs hm he
    refine ⟨hs.symm, ?_⟩
    rw [← hm, ← he]
    have hsame : ((2 ^ 52 : Nat) : ℚ) * (2 : ℚ) ^ (e0 + 1) = (m0 : ℚ) * (2 : ℚ) ^ e0 := by
      rw [htop, zpow_add_one₀ h2]
      push_cast
      ring
    rw [hsame]
    exact le_trans hval hbound
  · simp only [htop, if_false] at h
    split_ifs at h with hover
    injection h with hs hm he
    refine ⟨hs.symm, ?_⟩
    rw [← hm, ← he]
    exact le_trans hval hbound

theorem sign_ne (s t : Bool) :
    ((if (s != t) = true then -1 else 1 : ℚ))
      = (if s = true then -1 else 1) * (if t = true then -1 else 1) := by
  cases s <;> cases t <;> simp

theorem abs_sign_mul (s : Bool) (a : ℚ) : |(if s = true then -1 else 1 : ℚ) * a| = |a| := by
  cases s <;> simp

/-- The product of two finite numbers, when finite, is the exact product up to
half a unit in the last place. -/
theorem mul_error (x y : Double) (qx qy p : ℚ) (hx : toRat x = some qx)
    (hy : toRat y = some qy) (hp : toRat (mul x y) = some p) :
    |p - qx * qy| ≤ max (|qx * qy| / 2 ^ 53) ((2 : ℚ) ^ (-1075 : Int)) := by
  cases x with
  | nan => simp [toRat] at hx
  | inf s => simp [toRat] at hx
  | fin s m e =>
    cases y with
    | nan => simp [toRat] at hy
    | inf t => simp [toRat] at hy
    | fin t k f =>
      simp only [toRat, Option.some.injEq] at hx hy
      have hdpos : 0 < magDen e * magDen f :=
        Nat.mul_pos (Nat.two_pow_pos _) (Nat.two_pow_pos _)
      have hprod : qx * qy = (if (s != t) = true then -1 else 1 : ℚ)
          * (((magNum m e * magNum k f : Nat) : ℚ) / ((magDen e * magDen f : Nat) : ℚ)) := by
        rw [← hx, ← hy, sign_ne]
        push_cast
        have h1 : ((magDen e : Nat) : ℚ) ≠ 0 := by
          exact_mod_cast (Nat.two_pow_pos _).ne'
        have h2 : ((magDen f : Nat) : ℚ) ≠ 0 := by
          exact_mod_cast (Nat.two_pow_pos _).ne'
        field_simp
      simp only [mul] at hp
      by_cases hn : magNum m e * magNum k f = 0
      · have hzero : qx * qy = 0 := by
          rw [hprod, hn]; simp
        have hp0 : p = 0 := by
          rw [ofQuotient, if_pos hn] at hp
          simp only [toRat, Option.some.injEq] at hp
          rw [← hp]
          simp [magNum]
        rw [hp0, hzero]
        simp only [sub_zero, abs_zero, zero_div]
        exact le_max_of_le_right (zpow_pos (by norm_num) _).le
      · have hnpos : 0 < magNum m e * magNum k f := Nat.pos_of_ne_zero hn
        cases hr : ofQuotient (s != t) (magNum m e * magNum k f) (magDen e * magDen f) with
        | nan => rw [hr] at hp; simp [toRat] at hp
        | inf u => rw [hr] at hp; simp [toRat] at hp
        | fin u m1 e1 =>
          rw [hr] at hp
          simp only [toRat, Option.some.injEq] at hp
          obtain ⟨hu, herr⟩ := ofQuotient_error (s != t) _ _ hnpos hdpos u m1 e1 hr
          rw [magNum_div_magDen, hu] at hp
          have hdiff : p - qx * qy = (if (s != t) = true then -1 else 1 : ℚ)
              * ((m1 : ℚ) * (2 : ℚ) ^ e1
                - ((magNum m e * magNum k f : Nat) : ℚ) / ((magDen e * magDen f : Nat) : ℚ)) := by
            rw [← hp, hprod]; ring
          have hnonneg : (0 : ℚ) ≤ ((magNum m e * magNum k f : Nat) : ℚ)
              / ((magDen e * magDen f : Nat) : ℚ) := by positivity
          rw [hdiff, abs_sign_mul, hprod, abs_sign_mul, abs_of_nonneg hnonneg]
          exact herr

set_option maxRecDepth 100000 in
theorem toRat_ofNat_100 : toRat (ofNat 100) = some 100 := by
  have h : ofNat 100 = fin false 7036874417766400 (-46) := by decide
  rw [h]
  simp [toRat, magNum, magDen]
  norm_num

end Double

theorem percentLabel_of_value (x : Double) (p : ℚ)
    (hp : Double.toRat (Double.mul x (Double.ofNat 100)) = some p)
    (hr : ⌊p + 1 / 2⌋.natAbs ≤ 2 ^ 53) :
    percentLabel x = some (roundHalfUpLabel p) := by
  unfold percentLabel roundHalfUpLabel
  cases hm : Double.mul x (Double.ofNat 100) with
  | nan => rw [hm] at hp; simp [Double.toRat] at hp
  | inf neg => rw [hm] at hp; simp [Double.toRat] at hp
  | fin neg m e =>
    rw [hm] at hp
    rw [Double.numberToString_mathRound neg m e p hp hr]
    rfl

set_option maxRecDepth 100000 in
theorem percentLabel_087 : percentLabel (Double.ofDecimal 87 2) = some "87%" := by
  decide

set_option maxRecDepth 100000 in
theorem product_087 :
    Double.toRat (Double.mul (Double.ofDecimal 87 2) (Double.ofNat 100)) = some 87 := by
  have h : Double.mul (Double.ofDecimal 87 2) (Double.ofNat 100)
      = Double.fin false 6122080743456768 (-46) := by decide
  rw [h]
  simp [Double.toRat, Double.magNum, Double.magDen]
  norm_num

theorem floor_87_in_range : ⌊(87 : ℚ) + 1 / 2⌋.natAbs ≤ 2 ^ 53 := by
  have h : ⌊(87 : ℚ) + 1 / 2⌋ = 87 := by
    rw [Int.floor_eq_iff]; norm_num
  rw [h]
  decide

set_option maxRecDepth 100000 in
/-- C9, as stated, fails under either reading of "the overall_score". Read as
the decimal number the backend sent: `0.285` renders as `28%`, while
`floor(100 * 0.285 + 1/2)` is 29. Read as the exact value of the number the
page holds: the number parsed from `0.015` has the exact value
`8646911284551352 / 2^59`, which renders as `2%`, while `floor(100 * value +
1/2)` is 1. -/
theorem C9_counterexample :
    (renderEmployeeDashboard (loadedState (Double.ofDecimal 285 3))).overallPerformance
      = some "28%" ∧
    roundHalfUpLabel (100 * (285 / 1000)) = "29%" ∧
    (renderEmployeeDashboard (loadedState (Double.ofDecimal 15 3))).overallPerformance
      = some "2%" ∧
    Double.toRat (Double.ofDecimal 15 3) = some (8646911284551352 / 2 ^ 59) ∧
    roundHalfUpLabel (100 * (8646911284551352 / 2 ^ 59)) = "1%" := by
  refine ⟨by decide, ?_, by decide, ?_, ?_⟩
  · have h : ⌊(100 * (285 / 1000) + 1 / 2 : ℚ)⌋ = 29 := by
      rw [Int.floor_eq_iff]; norm_num
    unfold roundHalfUpLabel
    rw [h]
    decide
  · have h : Double.ofDecimal 15 3 = Double.fin false 8646911284551352 (-59) := by decide
    rw [h]
    simp [Double.toRat, Double.magNum, Double.magDen]
    norm_num
  · have h : ⌊(100 * (8646911284551352 / 2 ^ 59) + 1 / 2 : ℚ)⌋ = 1 := by
      rw [Int.floor_eq_iff]; norm_num
    unfold roundHalfUpLabel
    rw [h]
    decide

/-- C9, amended: after a successful fetch, whenever the double-precision product
`overall_score * 100` is finite with exact value `p` (of magnitude up to
`2^53` once rounded), the Overall Performance label is `p` rounded to the
nearest integer with halves rounded up, followed by `%`. Here `p` is the exact
product `100 * score` up to the rounding of the multiplication: a relative
error of at most `2^-53` (an absolute error of at most `2^-1075` in the
subnormal range). The label is the claimed `floor(100 * score + 1/2)%` whenever
the product is exact, and `overall_score = 0.87` renders as `87%`. -/
theorem C9_overall_label_rounds_double_product (st : DashboardState)
    (data : EmployeeAnalysis) (p : ℚ)
    (hd : st.employeeData = some data)
    (hp : Double.toRat
      (Double.mul data.performance_summary.overall_score (Double.ofNat 100)) = some p)
    (hr : ⌊p + 1 / 2⌋.natAbs ≤ 2 ^ 53) :
    (renderEmployeeDashboard st).overallPerformance = some (roundHalfUpLabel p) ∧
    (∀ q, Double.toRat data.performance_summary.overall_score = some q →
      |p - 100 * q| ≤ max (|100 * q| / 2 ^ 53) ((2 : ℚ) ^ (-1075 : Int))) ∧
    (∀ q, Double.toRat data.performance_summary.overall_score = some q → p = 100 * q →
      (renderEmployeeDashboard st).overallPerformance = some (roundHalfUpLabel (100 * q))) ∧
    (data.performance_summary.overall_score = Double.ofDecimal 87 2 →
      (renderEmployeeDashboard st).overallPerformance = some "87%") := by
  have hview : (renderEmployeeDashboard st).overallPerformance
      = percentLabel data.performance_summary.overall_score := by
    simp [renderEmployeeDashboard, hd, View.overallPerformance]
  have hmain := percentLabel_of_value data.performance_summary.overall_score p hp hr
  refine ⟨by rw [hview, hmain], ?_, ?_, ?_⟩
  · intro q hq
    have herr := Double.mul_error data.performance_summary.overall_score (Double.ofNat 100)
      q 100 p hq Double.toRat_ofNat_100 hp
    rw [mul_comm q 100] at herr
    exact herr
  · intro q _ hq
    rw [hview, hmain, hq]
  · intro h87
    rw [hview, h87]
    exact percentLabel_087

theorem C9_overall_label_rounds_double_product_witness :
    (loadedState (Double.ofDecimal 87 2)).employeeData
      = some (sampleEmployeeAnalysis (Double.ofDecimal 87 2)) ∧
    Double.toRat (Double.mul
      (sampleEmployeeAnalysis (Double.ofDecimal 87 2)).performance_summary.overall_score
      (Double.ofNat 100)) = some 87 ∧
    ⌊(87 : ℚ) + 1 / 2⌋.natAbs ≤ 2 ^ 53 ∧
    (renderEmployeeDashboard (loadedState (Double.ofDecimal 87 2))).overallPerformance
      = some (roundHalfUpLabel 87) :=
  ⟨rfl, product_087, floor_87_in_range,
   (C9_overall_label_rounds_double_product (loadedState (Double.ofDecimal 87 2))
      (sampleEmployeeAnalysis (Double.ofDecimal 87 2)) 87 rfl product_087
      floor_87_in_range).1⟩

/-! ## Properties of the employee id and of the admin average -/

theorem employeeIdOf_cases (user : Option User) :
    (user.bind User.id = none → employeeIdOf user = IdValue.str "1") ∧
    (∀ v, user.bind User.id = some v → v.truthy = false →
      employeeIdOf user = IdValue.str "1") ∧
    (∀ v, user.bind User.id = some v → v.truthy = true → employeeIdOf user = v) := by
  refine ⟨?_, ?_, ?_⟩
  · intro h
    simp [employeeIdOf, h]
  · intro v h hv
    simp [employeeIdOf, h, hv]
  · intro v h hv
    simp [employeeIdOf, h, hv]

theorem fetchData_analysisIds (api : Api) (adminView : Bool) (auth : Session)
    (st : DashboardState) (h : (adminView && auth.isAdmin) = false) :
    analysisIds (fetchData api adminView auth st).2 = [employeeIdOf auth.user] := by
  cases hr : api.getEmployeeAnalysis (employeeIdOf auth.user) <;>
    simp [fetchData, fetchDataTry, h, hr, analysisIds]

theorem runDomSteps_no_report (browser : Browser) (steps : List DomStep) :
    reportIds (runDomSteps browser steps).2 = [] := by
  induction steps with
  | nil => simp [runDomSteps, reportIds]
  | cons a t ih =>
    cases hc : browser.completes a
    · simp [runDomSteps, hc, reportIds]
    · simp only [runDomSteps, hc, if_true]
      simpa [reportIds] using ih

theorem handleGenerateReport_reportIds (api : Api) (browser : Browser) (auth : Session) :
    reportIds (handleGenerateReport api browser auth) = [employeeIdOf auth.user] := by
  cases hr : api.getReport (employeeIdOf auth.user) with
  | error err =>
    simp [handleGenerateReport, handleGenerateReportTry, hr, reportIds]
  | ok blob =>
    have hno := runDomSteps_no_report browser (downloadSteps (employeeIdOf auth.user))
    cases hd : runDomSteps browser (downloadSteps (employeeIdOf auth.user)) with
    | mk thrown log =>
      rw [hd] at hno
      simp only [reportIds] at hno
      cases thrown <;>
        simp [handleGenerateReport, handleGenerateReportTry, hr, hd, reportIds,
          List.filterMap_cons, List.filterMap_append, hno]

/-- C11, as stated, fails: a session whose user carries the id `0` (or the empty
string) does carry a user id, yet the employee-mode load and the report
download both use the placeholder `'1'`, because `user?.id || '1'` tests the id
for truthiness, not for presence. -/
theorem C11_counterexample :
    (⟨some ⟨some (IdValue.num 0), "employee"⟩, false, false⟩ : Session).user.bind User.id
      = some (IdValue.num 0) ∧
    analysisIds (fetchData workingApi false
      ⟨some ⟨some (IdValue.num 0), "employee"⟩, false, false⟩ DashboardState.initial).2
        = [IdValue.str "1"] ∧
    reportIds (handleGenerateReport workingApi workingBrowser
      ⟨some ⟨some (IdValue.num 0), "employee"⟩, false, false⟩) = [IdValue.str "1"] ∧
    downloadNames (handleGenerateReport workingApi workingBrowser
      ⟨some ⟨some (IdValue.num 0), "employee"⟩, false, false⟩) = ["employee_1_report.pdf"] ∧
    (⟨some ⟨some (IdValue.str ""), "employee"⟩, false, false⟩ : Session).user.bind User.id
      = some (IdValue.str "") ∧
    analysisIds (fetchData workingApi false
      ⟨some ⟨some (IdValue.str ""), "employee"⟩, false, false⟩ DashboardState.initial).2
        = [IdValue.str "1"] := by
  decide

/-- C11, amended: for every session, the employee-mode load calls
`getEmployeeAnalysis` once and the report download calls `getReport` once,
both with the value of `user?.id || '1'`. That value is the user's id whenever
the id is truthy (a non-empty string or a non-zero number), and the placeholder
`'1'` otherwise: when `user` is null, when the user has no id, or when the id
is falsy (`0` or the empty string). -/
theorem C11_employee_id_is_truthy_id_or_placeholder (api : Api) (browser : Browser)
    (adminView : Bool) (auth : Session) (st : DashboardState)
    (hmode : (adminView && auth.isAdmin) = false) :
    analysisIds (fetchData api adminView auth st).2 = [employeeIdOf auth.user] ∧
    reportIds (handleGenerateReport api browser auth) = [employeeIdOf auth.user] ∧
    (∀ v, auth.user.bind User.id = some v → v.truthy = true → employeeIdOf auth.user = v) ∧
    (∀ v, auth.user.bind User.id = some v → v.truthy = false →
      employeeIdOf auth.user = IdValue.str "1") ∧
    (auth.user.bind User.id = none → employeeIdOf auth.user = IdValue.str "1") ∧
    (auth.user = none → employeeIdOf auth.user = IdValue.str "1") ∧
    (∀ v, v.truthy = true ↔ (v ≠ IdValue.str "" ∧ v ≠ IdValue.num 0)) := by
  have hc := employeeIdOf_cases auth.user
  refine ⟨fetchData_analysisIds api adminView auth st hmode,
    handleGenerateReport_reportIds api browser auth, hc.2.2, hc.2.1, hc.1, ?_, ?_⟩
  · intro hu
    exact hc.1 (by simp [hu])
  · intro v
    cases v with
    | str s => simp [IdValue.truthy]
    | num n => simp [IdValue.truthy]

theorem C11_employee_id_is_truthy_id_or_placeholder_witness :
    (false && (⟨some ⟨some (IdValue.num 7), "employee"⟩, false, false⟩ : Session).isAdmin)
      = false ∧
    analysisIds (fetchData workingApi false
      ⟨some ⟨some (IdValue.num 7), "employee"⟩, false, false⟩ DashboardState.initial).2
        = [IdValue.num 7] ∧
    reportIds (handleGenerateReport workingApi workingBrowser
      ⟨some ⟨some (IdValue.num 7), "employee"⟩, false, false⟩) = [IdValue.num 7] :=
  ⟨rfl,
   (C11_employee_id_is_truthy_id_or_placeholder workingApi workingBrowser false
      ⟨some ⟨some (IdValue.num 7), "employee"⟩, false, false⟩ DashboardState.initial rfl).1,
   (C11_employee_id_is_truthy_id_or_placeholder workingApi workingBrowser false
      ⟨some ⟨some (IdValue.num 7), "employee"⟩, false, false⟩ DashboardState.initial rfl).2.1⟩

/-- The number of a non-empty array's length is a non-zero finite number. -/
theorem ofNat_length_ne_zero (n : Nat) (hpos : 0 < n) (hle : n ≤ 2 ^ 53) :
    ∃ m e, Double.ofNat n = Double.fin false m e ∧ m ≠ 0 := by
  obtain ⟨m, e, hform, hint⟩ := Double.ofQuotient_nat_form false n hle
  refine ⟨m, e, hform, ?_⟩
  intro hm
  subst hm
  simp only [Double.toInt, Double.magNum, Nat.zero_mul, Nat.zero_mod, if_true, Nat.zero_div,
    Option.some.injEq, Bool.false_eq_true, if_false] at hint
  omega

/-- With at least one department the division of the Average Performance card
is by a non-zero number. -/
theorem average_divisor_ne_zero (adminData : AdminAnalysisSummary)
    (hne : adminData.department_statistics ≠ [])
    (hlen : adminData.department_statistics.length ≤ 2 ^ 53) :
    ∃ m e, Double.ofNat (taskCompletionRates adminData).length = Double.fin false m e ∧
      m ≠ 0 := by
  have hl : (taskCompletionRates adminData).length = adminData.department_statistics.length := by
    simp [taskCompletionRates]
  rw [hl]
  exact ofNat_length_ne_zero _ (List.length_pos.mpr hne) hlen

/-- Whenever the quotient of the Average Performance card is a finite number
with exact value `p` (of magnitude up to `2^53` once rounded), the card shows
`p` rounded to the nearest integer, halves up, followed by `%`. -/
theorem averagePerformanceLabel_of_value (rates : List Double) (p : ℚ)
    (hp : Double.toRat (Double.div (rates.foldl Double.add (Double.ofNat 0))
      (Double.ofNat rates.length)) = some p)
    (hr : ⌊p + 1 / 2⌋.natAbs ≤ 2 ^ 53) :
    averagePerformanceLabel rates = some (roundHalfUpLabel p) := by
  unfold averagePerformanceLabel roundHalfUpLabel
  cases hq : Double.div (rates.foldl Double.add (Double.ofNat 0))
      (Double.ofNat rates.length) with
  | nan => rw [hq] at hp; simp [Double.toRat] at hp
  | inf neg => rw [hq] at hp; simp [Double.toRat] at hp
  | fin neg m e =>
    rw [hq] at hp
    rw [Double.numberToString_mathRound neg m e p hp hr]
    rfl

set_option maxRecDepth 100000 in
set_option exponentiation.threshold 2300 in
/-- The sample summary (task completion 0.8 and 0.6) shows an average of 70%. -/
theorem sample_average_performance :
    (renderAdminDashboard (adminLoadedState sampleAdminSummary)).averagePerformance
      = some "70%" := by
  decide

set_option maxRecDepth 100000 in
/-- C12: the code at the failing input. For a summary whose
`department_statistics` is empty, the list of rates is empty, the sum is `0`
and the divisor `rates.length` is `0`: the division is `0 / 0`, which is
`NaN`, and the Average Performance card shows `NaN%`, also when the summary
arrives through an admin load. The value the claim promises is not defined. -/
theorem C12_empty_departments_divide_zero_by_zero :
    taskCompletionRates emptyAdminSummary = [] ∧
    (taskCompletionRates emptyAdminSummary).foldl Double.add (Double.ofNat 0)
      = Double.fin false 0 (-1074) ∧
    Double.ofNat (taskCompletionRates emptyAdminSummary).length = Double.fin false 0 (-1074) ∧
    Double.div ((taskCompletionRates emptyAdminSummary).foldl Double.add (Double.ofNat 0))
      (Double.ofNat (taskCompletionRates emptyAdminSummary).length) = Double.nan ∧
    averagePerformanceLabel (taskCompletionRates emptyAdminSummary) = some "NaN%" ∧
    (renderAdminDashboard (adminLoadedState emptyAdminSummary)).averagePerformance
      = some "NaN%" ∧
    (Dashboard true ⟨some ⟨some (IdValue.num 1), "admin"⟩, false, true⟩
      (fetchData emptyDepartmentsApi true ⟨some ⟨some (IdValue.num 1), "admin"⟩, false, true⟩
        DashboardState.initial).1).averagePerformance = some "NaN%" := by
  decide

end Alms
